import Mathlib

/-!
Verification development for the pixel-art generation pipeline.

Shallow embedding of the command-execution engine and job orchestration
of the repository:
* `src/app/services/tools/definitions.py` — tool names and argument schemas,
* `src/app/services/tools/executors.py` — per-tool canvas mutations,
* `src/app/services/tool_harness.py` — validation pipeline and dispatch,
* `src/app/services/watermark.py` — LSB watermark encoder,
* `src/app/services/authenticity.py` — HMAC seal with key versioning,
* `src/app/services/generation_orchestrator.py` — job state machine.

Python machine-free integers are embedded as `Int`/`Nat`; in-place PIL
image mutation is embedded as explicit state passing over a pixel map;
Python exceptions are embedded as `Except`.
-/

namespace PixelArt

/-- JSON-like raw argument value, as produced by the LLM integration
(Python `dict[str, Any]` entries). -/
inductive JVal where
  | jint (n : Int)
  | jstr (s : String)
  | jbool (b : Bool)
  | jlist (l : List JVal)

/-- Raw arguments dictionary (`raw_args: dict[str, Any]`). -/
abbrev RawArgs := List (String × JVal)

/-- `ToolName` enum from `definitions.py`. -/
inductive ToolName where
  | set_pixel
  | fill_rect
  | set_palette
  | seal_canvas
  | draw_line
  | draw_circle
  | flood_fill
  | gradient_fill
  | dither
  | mirror
  | rotate
deriving Repr, DecidableEq

/-- String value of each `ToolName` member. -/
def ToolName.toStr : ToolName → String
  | .set_pixel => "set_pixel"
  | .fill_rect => "fill_rect"
  | .set_palette => "set_palette"
  | .seal_canvas => "seal_canvas"
  | .draw_line => "draw_line"
  | .draw_circle => "draw_circle"
  | .flood_fill => "flood_fill"
  | .gradient_fill => "gradient_fill"
  | .dither => "dither"
  | .mirror => "mirror"
  | .rotate => "rotate"

/-- `ToolName(tool_name_str)`: `none` models the `ValueError` raised on an
unknown name. -/
def toolNameOfString (s : String) : Option ToolName :=
  if s = "set_pixel" then some .set_pixel
  else if s = "fill_rect" then some .fill_rect
  else if s = "set_palette" then some .set_palette
  else if s = "seal_canvas" then some .seal_canvas
  else if s = "draw_line" then some .draw_line
  else if s = "draw_circle" then some .draw_circle
  else if s = "flood_fill" then some .flood_fill
  else if s = "gradient_fill" then some .gradient_fill
  else if s = "dither" then some .dither
  else if s = "mirror" then some .mirror
  else if s = "rotate" then some .rotate
  else none

/-- Validated `SetPixelArgs` (all fields passed their `ge`/`le` checks, so
coordinates and channels are represented as `Nat`). -/
structure SetPixelArgs where
  x : Nat
  y : Nat
  r : Nat
  g : Nat
  b : Nat
deriving Repr, DecidableEq

/-- Validated `FillRectArgs`. -/
structure FillRectArgs where
  x1 : Nat
  y1 : Nat
  x2 : Nat
  y2 : Nat
  r : Nat
  g : Nat
  b : Nat
deriving Repr, DecidableEq

/-- Validated `SetPaletteArgs`. -/
structure SetPaletteArgs where
  colors : List (List Nat)
deriving Repr, DecidableEq

/-- Validated `SealCanvasArgs` (no fields). -/
structure SealCanvasArgs where
deriving Repr, DecidableEq

/-- Validated `DrawLineArgs`. -/
structure DrawLineArgs where
  x1 : Nat
  y1 : Nat
  x2 : Nat
  y2 : Nat
  r : Nat
  g : Nat
  b : Nat
deriving Repr, DecidableEq

/-- Validated `DrawCircleArgs`. -/
structure DrawCircleArgs where
  cx : Nat
  cy : Nat
  radius : Nat
  r : Nat
  g : Nat
  b : Nat
  fill : Bool
deriving Repr, DecidableEq

/-- Validated `FloodFillArgs`. -/
structure FloodFillArgs where
  x : Nat
  y : Nat
  r : Nat
  g : Nat
  b : Nat
deriving Repr, DecidableEq

/-- Validated `GradientFillArgs`; `direction` matched the pattern
`horizontal|vertical`. -/
structure GradientFillArgs where
  x1 : Nat
  y1 : Nat
  x2 : Nat
  y2 : Nat
  r1 : Nat
  g1 : Nat
  b1 : Nat
  r2 : Nat
  g2 : Nat
  b2 : Nat
  direction : String
deriving Repr, DecidableEq

/-- Validated `DitherArgs`. -/
structure DitherArgs where
  x1 : Nat
  y1 : Nat
  x2 : Nat
  y2 : Nat
  r1 : Nat
  g1 : Nat
  b1 : Nat
  r2 : Nat
  g2 : Nat
  b2 : Nat
deriving Repr, DecidableEq

/-- Validated `MirrorArgs`; `axis` matched the pattern `horizontal|vertical`. -/
structure MirrorArgs where
  axis : String
deriving Repr, DecidableEq

/-- Validated `RotateArgs` (`0 <= degrees < 360`). -/
structure RotateArgs where
  degrees : Nat
deriving Repr, DecidableEq

/-- Sum of all validated per-tool argument models. -/
inductive ToolArgs where
  | setPixel (a : SetPixelArgs)
  | fillRect (a : FillRectArgs)
  | setPalette (a : SetPaletteArgs)
  | sealCanvas (a : SealCanvasArgs)
  | drawLine (a : DrawLineArgs)
  | drawCircle (a : DrawCircleArgs)
  | floodFill (a : FloodFillArgs)
  | gradientFill (a : GradientFillArgs)
  | dither (a : DitherArgs)
  | mirror (a : MirrorArgs)
  | rotate (a : RotateArgs)
deriving Repr, DecidableEq

/-- Look a field up in the raw dictionary. -/
def getField (raw : RawArgs) (k : String) : Option JVal :=
  (raw.find? (fun kv => kv.1 == k)).map (fun kv => kv.2)

/-- Pydantic `extra="forbid"`: every supplied key must be a declared field. -/
def extraFieldsOk (raw : RawArgs) (allowed : List String) : Bool :=
  raw.all (fun kv => allowed.contains kv.1)

/-- Required int field with a lower bound (`Field(ge=lo)`).  Pydantic's
structured error text is abstracted to a short message; the harness only
forwards it inside `Argument validation failed: ...`. -/
def reqIntGe (raw : RawArgs) (k : String) (lo : Int) : Except String Int :=
  match getField raw k with
  | some (.jint n) => if lo ≤ n then .ok n else .error ("field " ++ k ++ " out of range")
  | some _ => .error ("field " ++ k ++ " has wrong type")
  | none => .error ("field " ++ k ++ " is required")

/-- Required int field with both bounds (`Field(ge=lo, le=hi)`). -/
def reqIntRange (raw : RawArgs) (k : String) (lo hi : Int) : Except String Int :=
  match getField raw k with
  | some (.jint n) =>
      if lo ≤ n ∧ n ≤ hi then .ok n else .error ("field " ++ k ++ " out of range")
  | some _ => .error ("field " ++ k ++ " has wrong type")
  | none => .error ("field " ++ k ++ " is required")

/-- Required color channel (`Field(ge=0, le=255)`). -/
def reqChannel (raw : RawArgs) (k : String) : Except String Int :=
  reqIntRange raw k 0 255

/-- `SetPixelArgs.model_validate`. -/
def validateSetPixel (raw : RawArgs) : Except String SetPixelArgs := do
  if !extraFieldsOk raw ["x", "y", "r", "g", "b"] then
    throw "unexpected extra field"
  let x ← reqIntGe raw "x" 0
  let y ← reqIntGe raw "y" 0
  let r ← reqChannel raw "r"
  let g ← reqChannel raw "g"
  let b ← reqChannel raw "b"
  return { x := x.toNat, y := y.toNat, r := r.toNat, g := g.toNat, b := b.toNat }

/-- `FillRectArgs.model_validate`, including the `_check_rect_order`
model validator. -/
def validateFillRect (raw : RawArgs) : Except String FillRectArgs := do
  if !extraFieldsOk raw ["x1", "y1", "x2", "y2", "r", "g", "b"] then
    throw "unexpected extra field"
  else
    let x1 ← reqIntGe raw "x1" 0
    let y1 ← reqIntGe raw "y1" 0
    let x2 ← reqIntGe raw "x2" 0
    let y2 ← reqIntGe raw "y2" 0
    let r ← reqChannel raw "r"
    let g ← reqChannel raw "g"
    let b ← reqChannel raw "b"
    if x2 < x1 ∨ y2 < y1 then
      throw "x2 must be >= x1 and y2 must be >= y1 for fill_rect"
    else
      return { x1 := x1.toNat, y1 := y1.toNat, x2 := x2.toNat, y2 := y2.toNat,
               r := r.toNat, g := g.toNat, b := b.toNat }

/-- Parse a JSON list of `[r, g, b]` colors into machine ints. -/
def parseColorRows : List JVal → Except String (List (List Int))
  | [] => .ok []
  | .jlist row :: rest => do
      let ints ← row.foldr (fun v acc => do
        let tl ← acc
        match v with
        | .jint n => Except.ok (n :: tl)
        | _ => Except.error "color component has wrong type") (Except.ok [])
      let tail ← parseColorRows rest
      return ints :: tail
  | _ :: _ => .error "color row has wrong type"

/-- `SetPaletteArgs.model_validate`, including `max_length=16` and the
`_validate_colors` model validator. -/
def validateSetPalette (raw : RawArgs) : Except String SetPaletteArgs := do
  if !extraFieldsOk raw ["colors"] then
    throw "unexpected extra field"
  match getField raw "colors" with
  | some (.jlist rows) => do
      let colors ← parseColorRows rows
      if colors.length > 16 then
        throw "colors exceeds max_length 16"
      if colors.any (fun c => c.length ≠ 3) then
        throw "each color must have exactly 3 values"
      if colors.any (fun c => c.any (fun v => v < 0 ∨ 255 < v)) then
        throw "color component out of range 0-255"
      return { colors := colors.map (fun c => c.map Int.toNat) }
  | some _ => throw "field colors has wrong type"
  | none => throw "field colors is required"

/-- `SealCanvasArgs.model_validate` (no declared fields, extra forbidden). -/
def validateSealCanvas (raw : RawArgs) : Except String SealCanvasArgs :=
  if !extraFieldsOk raw [] then .error "unexpected extra field"
  else .ok {}

/-- `DrawLineArgs.model_validate`. -/
def validateDrawLine (raw : RawArgs) : Except String DrawLineArgs := do
  if !extraFieldsOk raw ["x1", "y1", "x2", "y2", "r", "g", "b"] then
    throw "unexpected extra field"
  let x1 ← reqIntGe raw "x1" 0
  let y1 ← reqIntGe raw "y1" 0
  let x2 ← reqIntGe raw "x2" 0
  let y2 ← reqIntGe raw "y2" 0
  let r ← reqChannel raw "r"
  let g ← reqChannel raw "g"
  let b ← reqChannel raw "b"
  return { x1 := x1.toNat, y1 := y1.toNat, x2 := x2.toNat, y2 := y2.toNat,
           r := r.toNat, g := g.toNat, b := b.toNat }

/-- `DrawCircleArgs.model_validate` (`radius` in `1..=32`, `fill` optional
with default `False`). -/
def validateDrawCircle (raw : RawArgs) : Except String DrawCircleArgs := do
  if !extraFieldsOk raw ["cx", "cy", "radius", "r", "g", "b", "fill"] then
    throw "unexpected extra field"
  let cx ← reqIntGe raw "cx" 0
  let cy ← reqIntGe raw "cy" 0
  let radius ← reqIntRange raw "radius" 1 32
  let r ← reqChannel raw "r"
  let g ← reqChannel raw "g"
  let b ← reqChannel raw "b"
  let fl ← match getField raw "fill" with
    | none => Except.ok false
    | some (.jbool v) => Except.ok v
    | some _ => Except.error "field fill has wrong type"
  return { cx := cx.toNat, cy := cy.toNat, radius := radius.toNat,
           r := r.toNat, g := g.toNat, b := b.toNat, fill := fl }

/-- `FloodFillArgs.model_validate`. -/
def validateFloodFill (raw : RawArgs) : Except String FloodFillArgs := do
  if !extraFieldsOk raw ["x", "y", "r", "g", "b"] then
    throw "unexpected extra field"
  let x ← reqIntGe raw "x" 0
  let y ← reqIntGe raw "y" 0
  let r ← reqChannel raw "r"
  let g ← reqChannel raw "g"
  let b ← reqChannel raw "b"
  return { x := x.toNat, y := y.toNat, r := r.toNat, g := g.toNat, b := b.toNat }

/-- `GradientFillArgs.model_validate` (`direction` optional, default
`"horizontal"`, pattern `horizontal|vertical`). -/
def validateGradientFill (raw : RawArgs) : Except String GradientFillArgs := do
  if !extraFieldsOk raw
      ["x1", "y1", "x2", "y2", "r1", "g1", "b1", "r2", "g2", "b2", "direction"] then
    throw "unexpected extra field"
  let x1 ← reqIntGe raw "x1" 0
  let y1 ← reqIntGe raw "y1" 0
  let x2 ← reqIntGe raw "x2" 0
  let y2 ← reqIntGe raw "y2" 0
  let r1 ← reqChannel raw "r1"
  let g1 ← reqChannel raw "g1"
  let b1 ← reqChannel raw "b1"
  let r2 ← reqChannel raw "r2"
  let g2 ← reqChannel raw "g2"
  let b2 ← reqChannel raw "b2"
  let dir ← match getField raw "direction" with
    | none => Except.ok "horizontal"
    | some (.jstr s) =>
        if s = "horizontal" ∨ s = "vertical" then Except.ok s
        else Except.error "field direction does not match pattern"
    | some _ => Except.error "field direction has wrong type"
  return { x1 := x1.toNat, y1 := y1.toNat, x2 := x2.toNat, y2 := y2.toNat,
           r1 := r1.toNat, g1 := g1.toNat, b1 := b1.toNat,
           r2 := r2.toNat, g2 := g2.toNat, b2 := b2.toNat, direction := dir }

/-- `DitherArgs.model_validate`. -/
def validateDither (raw : RawArgs) : Except String DitherArgs := do
  if !extraFieldsOk raw ["x1", "y1", "x2", "y2", "r1", "g1", "b1", "r2", "g2", "b2"] then
    throw "unexpected extra field"
  let x1 ← reqIntGe raw "x1" 0
  let y1 ← reqIntGe raw "y1" 0
  let x2 ← reqIntGe raw "x2" 0
  let y2 ← reqIntGe raw "y2" 0
  let r1 ← reqChannel raw "r1"
  let g1 ← reqChannel raw "g1"
  let b1 ← reqChannel raw "b1"
  let r2 ← reqChannel raw "r2"
  let g2 ← reqChannel raw "g2"
  let b2 ← reqChannel raw "b2"
  return { x1 := x1.toNat, y1 := y1.toNat, x2 := x2.toNat, y2 := y2.toNat,
           r1 := r1.toNat, g1 := g1.toNat, b1 := b1.toNat,
           r2 := r2.toNat, g2 := g2.toNat, b2 := b2.toNat }

/-- `MirrorArgs.model_validate` (`axis` required, pattern
`horizontal|vertical`). -/
def validateMirror (raw : RawArgs) : Except String MirrorArgs := do
  if !extraFieldsOk raw ["axis"] then
    throw "unexpected extra field"
  match getField raw "axis" with
  | some (.jstr s) =>
      if s = "horizontal" ∨ s = "vertical" then return { axis := s }
      else throw "field axis does not match pattern"
  | some _ => throw "field axis has wrong type"
  | none => throw "field axis is required"

/-- `RotateArgs.model_validate` (`ge=0, lt=360`). -/
def validateRotate (raw : RawArgs) : Except String RotateArgs := do
  if !extraFieldsOk raw ["degrees"] then
    throw "unexpected extra field"
  let d ← reqIntRange raw "degrees" 0 359
  return { degrees := d.toNat }

/-- `args_model_cls.model_validate(raw_args)` for the model paired with
each tool in the `DISPATCH` table. -/
def validateArgs : ToolName → RawArgs → Except String ToolArgs
  | .set_pixel, raw => (validateSetPixel raw).map .setPixel
  | .fill_rect, raw => (validateFillRect raw).map .fillRect
  | .set_palette, raw => (validateSetPalette raw).map .setPalette
  | .seal_canvas, raw => (validateSealCanvas raw).map .sealCanvas
  | .draw_line, raw => (validateDrawLine raw).map .drawLine
  | .draw_circle, raw => (validateDrawCircle raw).map .drawCircle
  | .flood_fill, raw => (validateFloodFill raw).map .floodFill
  | .gradient_fill, raw => (validateGradientFill raw).map .gradientFill
  | .dither, raw => (validateDither raw).map .dither
  | .mirror, raw => (validateMirror raw).map .mirror
  | .rotate, raw => (validateRotate raw).map .rotate

/-! ## Canvas and executors (`executors.py`)

The PIL `Image` is embedded as a total pixel map; the canvas dimensions
live in the harness configuration that created the image.  In-place
mutation becomes explicit state passing. -/

/-- One RGB pixel. -/
structure Pix where
  r : Nat
  g : Nat
  b : Nat
deriving Repr, DecidableEq, Inhabited

/-- The drawing surface: pixel value at each `(x, y)`. -/
abbrev Canvas := Nat → Nat → Pix

/-- `canvas.putpixel((x, y), color)`. -/
def putpixel (c : Canvas) (x y : Nat) (p : Pix) : Canvas :=
  fun x' y' => if x' = x ∧ y' = y then p else c x' y'

/-- Python `range(a, b + 1)` over naturals (empty when `b + 1 <= a`). -/
def rangeIncl (a b : Nat) : List Nat :=
  List.range' a (b + 1 - a)

/-- Outcome of one executor run: the resulting canvas, and either the
result message or the text of a raised exception. -/
abbrev ExecOutcome := Canvas × Except String String

/-- `execute_set_pixel`. -/
def execute_set_pixel (canvas : Canvas) (a : SetPixelArgs) : ExecOutcome :=
  (putpixel canvas a.x a.y ⟨a.r, a.g, a.b⟩,
   .ok ("Pixel set at (" ++ toString a.x ++ ", " ++ toString a.y ++ ") to ("
        ++ toString a.r ++ ", " ++ toString a.g ++ ", " ++ toString a.b ++ ")"))

/-- The result message of `execute_fill_rect`. -/
def fillRectMsg (a : FillRectArgs) : String :=
  "Filled rect (" ++ toString a.x1 ++ "," ++ toString a.y1 ++ ")-("
    ++ toString a.x2 ++ "," ++ toString a.y2 ++ ") ("
    ++ toString (a.x2 - a.x1 + 1) ++ "x" ++ toString (a.y2 - a.y1 + 1)
    ++ " px) with (" ++ toString a.r ++ ", " ++ toString a.g ++ ", "
    ++ toString a.b ++ ")"

/-- `execute_fill_rect`: nested loops `for y in range(y1, y2+1): for x in
range(x1, x2+1): putpixel`. -/
def execute_fill_rect (canvas : Canvas) (a : FillRectArgs) : ExecOutcome :=
  let color : Pix := ⟨a.r, a.g, a.b⟩
  let c := (rangeIncl a.y1 a.y2).foldl
    (fun c y => (rangeIncl a.x1 a.x2).foldl (fun c x => putpixel c x y color) c)
    canvas
  (c, .ok (fillRectMsg a))

/-- `execute_set_palette`: the palette is advisory metadata attached to the
canvas object; it changes no pixel. -/
def execute_set_palette (canvas : Canvas) (a : SetPaletteArgs) : ExecOutcome :=
  (canvas, .ok ("Palette set with " ++ toString a.colors.length ++ " colors"))

/-- `execute_seal_canvas`: seal bookkeeping is done by the harness; the
executor only returns the confirmation message. -/
def execute_seal_canvas (canvas : Canvas) (_a : SealCanvasArgs) : ExecOutcome :=
  (canvas, .ok "Canvas sealed")

/-- The drawing primitives the executors delegate to the PIL library for
(`ImageDraw.Draw(...).line/.ellipse`, `ImageDraw.floodfill`,
`Image.rotate`).  Their pixel-level geometry is library code outside the
repository, so it is kept abstract here; no claim depends on it. -/
structure PilOps where
  line : Nat → Nat → Nat → Nat → Pix → Canvas → Canvas
  ellipseOutline : Int → Int → Int → Int → Pix → Canvas → Canvas
  ellipseFill : Int → Int → Int → Int → Pix → Canvas → Canvas
  floodfill : Nat → Nat → Pix → Canvas → Canvas
  rotateImg : Nat → Canvas → Canvas

/-- `execute_draw_line` (drawing by `ImageDraw.line`). -/
def execute_draw_line (pil : PilOps) (canvas : Canvas) (a : DrawLineArgs) : ExecOutcome :=
  (pil.line a.x1 a.y1 a.x2 a.y2 ⟨a.r, a.g, a.b⟩ canvas,
   .ok ("Line drawn from (" ++ toString a.x1 ++ "," ++ toString a.y1 ++ ") to ("
        ++ toString a.x2 ++ "," ++ toString a.y2 ++ ") with color ("
        ++ toString a.r ++ ", " ++ toString a.g ++ ", " ++ toString a.b ++ ")"))

/-- `execute_draw_circle` (drawing by `ImageDraw.ellipse` over the bbox
`[cx - radius, cy - radius, cx + radius, cy + radius]`). -/
def execute_draw_circle (pil : PilOps) (canvas : Canvas) (a : DrawCircleArgs) : ExecOutcome :=
  let x0 : Int := (a.cx : Int) - (a.radius : Int)
  let y0 : Int := (a.cy : Int) - (a.radius : Int)
  let x1 : Int := (a.cx : Int) + (a.radius : Int)
  let y1 : Int := (a.cy : Int) + (a.radius : Int)
  let c := if a.fill then pil.ellipseFill x0 y0 x1 y1 ⟨a.r, a.g, a.b⟩ canvas
           else pil.ellipseOutline x0 y0 x1 y1 ⟨a.r, a.g, a.b⟩ canvas
  (c, .ok ("Circle (" ++ (if a.fill then "filled" else "outline") ++ ") at ("
        ++ toString a.cx ++ "," ++ toString a.cy ++ ") r=" ++ toString a.radius
        ++ " with color (" ++ toString a.r ++ ", " ++ toString a.g ++ ", "
        ++ toString a.b ++ ")"))

/-- `execute_flood_fill` (drawing by `ImageDraw.floodfill`, 4-connective). -/
def execute_flood_fill (pil : PilOps) (canvas : Canvas) (a : FloodFillArgs) : ExecOutcome :=
  (pil.floodfill a.x a.y ⟨a.r, a.g, a.b⟩ canvas,
   .ok ("Flood fill from (" ++ toString a.x ++ "," ++ toString a.y
        ++ ") with color (" ++ toString a.r ++ ", " ++ toString a.g ++ ", "
        ++ toString a.b ++ ")"))

/-- One gradient channel value: `int(c1 + (c2 - c1) * t)` with
`t = (k - k1) / span`.  The Python float arithmetic is embedded as the
exact rational computed with integer division truncating toward zero. -/
def gradientChannel (c1 c2 k1 k : Nat) (span : Nat) : Nat :=
  (((c1 : Int) * span + ((c2 : Int) - (c1 : Int)) * ((k : Int) - (k1 : Int))) / (span : Int)).toNat

/-- `execute_gradient_fill`. -/
def execute_gradient_fill (canvas : Canvas) (a : GradientFillArgs) : ExecOutcome :=
  let c :=
    if a.direction = "horizontal" then
      let span := max (a.x2 - a.x1) 1
      (rangeIncl a.x1 a.x2).foldl (fun c x =>
        let p : Pix := ⟨gradientChannel a.r1 a.r2 a.x1 x span,
                        gradientChannel a.g1 a.g2 a.x1 x span,
                        gradientChannel a.b1 a.b2 a.x1 x span⟩
        (rangeIncl a.y1 a.y2).foldl (fun c y => putpixel c x y p) c) canvas
    else
      let span := max (a.y2 - a.y1) 1
      (rangeIncl a.y1 a.y2).foldl (fun c y =>
        let p : Pix := ⟨gradientChannel a.r1 a.r2 a.y1 y span,
                        gradientChannel a.g1 a.g2 a.y1 y span,
                        gradientChannel a.b1 a.b2 a.y1 y span⟩
        (rangeIncl a.x1 a.x2).foldl (fun c x => putpixel c x y p) c) canvas
  (c, .ok ("Gradient (" ++ a.direction ++ ") from (" ++ toString a.x1 ++ ","
        ++ toString a.y1 ++ ") to (" ++ toString a.x2 ++ "," ++ toString a.y2 ++ ")"))

/-- `execute_dither`: checkerboard between two colors, color1 when
`(x + y)` is even. -/
def execute_dither (canvas : Canvas) (a : DitherArgs) : ExecOutcome :=
  let color1 : Pix := ⟨a.r1, a.g1, a.b1⟩
  let color2 : Pix := ⟨a.r2, a.g2, a.b2⟩
  let c := (rangeIncl a.y1 a.y2).foldl
    (fun c y => (rangeIncl a.x1 a.x2).foldl
      (fun c x => putpixel c x y (if (x + y) % 2 = 0 then color1 else color2)) c)
    canvas
  (c, .ok ("Dither pattern from (" ++ toString a.x1 ++ "," ++ toString a.y1
        ++ ") to (" ++ toString a.x2 ++ "," ++ toString a.y2 ++ ") between ("
        ++ toString a.r1 ++ "," ++ toString a.g1 ++ "," ++ toString a.b1
        ++ ") and (" ++ toString a.r2 ++ "," ++ toString a.g2 ++ ","
        ++ toString a.b2 ++ ")"))

/-- `execute_mirror`: whole-canvas flip; `transpose(FLIP_LEFT_RIGHT)` for
axis `"horizontal"`, `FLIP_TOP_BOTTOM` otherwise, pasted back. -/
def execute_mirror (w h : Nat) (canvas : Canvas) (a : MirrorArgs) : ExecOutcome :=
  let c : Canvas :=
    if a.axis = "horizontal" then fun x y => canvas (w - 1 - x) y
    else fun x y => canvas x (h - 1 - y)
  (c, .ok ("Canvas mirrored " ++ a.axis ++ "ly"))

/-- `execute_rotate` (geometry by `Image.rotate` with nearest-neighbor
resampling, `expand=False`, black fill — PIL library behaviour). -/
def execute_rotate (pil : PilOps) (canvas : Canvas) (a : RotateArgs) : ExecOutcome :=
  (pil.rotateImg a.degrees canvas,
   .ok ("Canvas rotated " ++ toString a.degrees ++ " degrees"))

/-! ## Tool harness (`tool_harness.py`) -/

/-- Outcome of a single tool-call attempt (`ToolCallResult`). -/
structure ToolCallResult where
  tool_name : String
  success : Bool
  message : String
deriving Repr, DecidableEq

/-- Configuration passed to the harness at creation time
(`HarnessConfig`). -/
structure HarnessConfig where
  canvas_width : Nat
  canvas_height : Nat
  allowed_tools : List String
  tool_budget_hard : Nat
deriving Repr, DecidableEq

/-- The mutable fields of `ToolHarness`. -/
structure HarnessState where
  canvas : Canvas
  tool_calls_executed : Nat
  sealed : Bool

/-- `ToolHarness.__init__`: fresh black canvas, zero counter, unsealed. -/
def initState (_cfg : HarnessConfig) : HarnessState :=
  { canvas := fun _ _ => ⟨0, 0, 0⟩, tool_calls_executed := 0, sealed := false }

/-- `f"Unknown tool: {tool_name_str!r}"` (Python `repr` quoting elided). -/
def unknownToolMsg (n : String) : String :=
  "Unknown tool: " ++ n

/-- Rejection message when the canvas is already sealed. -/
def sealedMsg : String :=
  "Canvas is sealed -- no further tool calls accepted"

/-- `f"Tool {tool_name_str!r} is not allowed in the current tier"`
(Python `repr` quoting elided). -/
def notAllowedMsg (n : String) : String :=
  "Tool " ++ n ++ " is not allowed in the current tier"

/-- `f"Tool budget exhausted ({executed}/{hard})"`. -/
def budgetMsg (executed hard : Nat) : String :=
  "Tool budget exhausted (" ++ toString executed ++ "/" ++ toString hard ++ ")"

/-- Out-of-bounds message for an x-axis coordinate field. -/
def oobMsgW (f : String) (v w : Nat) : String :=
  "Coordinate " ++ f ++ "=" ++ toString v ++ " is out of bounds (canvas width="
    ++ toString w ++ ")"

/-- Out-of-bounds message for a y-axis coordinate field. -/
def oobMsgH (f : String) (v h : Nat) : String :=
  "Coordinate " ++ f ++ "=" ++ toString v ++ " is out of bounds (canvas height="
    ++ toString h ++ ")"

/-- `ToolHarness._validate_preconditions`: gate checks in source order —
valid name, seal state, tier access, budget. -/
def validatePreconditions (cfg : HarnessConfig) (s : HarnessState) (n : String) :
    Option ToolCallResult :=
  match toolNameOfString n with
  | none => some ⟨n, false, unknownToolMsg n⟩
  | some _ =>
    if s.sealed then some ⟨n, false, sealedMsg⟩
    else if cfg.allowed_tools.contains n = false then some ⟨n, false, notAllowedMsg n⟩
    else if cfg.tool_budget_hard ≤ s.tool_calls_executed then
      some ⟨n, false, budgetMsg s.tool_calls_executed cfg.tool_budget_hard⟩
    else none

/-- Which axis a coordinate field is checked against. -/
inductive Axis where
  | x
  | y
deriving Repr, DecidableEq

/-- `_COORD_FIELDS`: the `(attr_name, axis)` pairs of each args model,
paired here with the attribute's value. -/
def coordSpecs : ToolArgs → List (String × Axis × Nat)
  | .setPixel a => [("x", .x, a.x), ("y", .y, a.y)]
  | .fillRect a => [("x1", .x, a.x1), ("y1", .y, a.y1), ("x2", .x, a.x2), ("y2", .y, a.y2)]
  | .drawLine a => [("x1", .x, a.x1), ("y1", .y, a.y1), ("x2", .x, a.x2), ("y2", .y, a.y2)]
  | .drawCircle a => [("cx", .x, a.cx), ("cy", .y, a.cy)]
  | .floodFill a => [("x", .x, a.x), ("y", .y, a.y)]
  | .gradientFill a => [("x1", .x, a.x1), ("y1", .y, a.y1), ("x2", .x, a.x2), ("y2", .y, a.y2)]
  | .dither a => [("x1", .x, a.x1), ("y1", .y, a.y1), ("x2", .x, a.x2), ("y2", .y, a.y2)]
  | .setPalette _ => []
  | .sealCanvas _ => []
  | .mirror _ => []
  | .rotate _ => []

/-- The loop body of `ToolHarness._check_bounds`: first violating
coordinate (in declaration order) yields its message. -/
def checkBoundsList (w h : Nat) : List (String × Axis × Nat) → Option String
  | [] => none
  | (f, .x, v) :: rest => if w ≤ v then some (oobMsgW f v w) else checkBoundsList w h rest
  | (f, .y, v) :: rest => if h ≤ v then some (oobMsgH f v h) else checkBoundsList w h rest

/-- `ToolHarness._check_bounds`. -/
def checkBounds (cfg : HarnessConfig) (args : ToolArgs) : Option String :=
  checkBoundsList cfg.canvas_width cfg.canvas_height (coordSpecs args)

/-- An arbitrary behaviour of the executor layer: given a tool, its
validated args and the canvas, produce the possibly-mutated canvas and
either a message or a raised exception.  Theorems about the validation
pipeline quantify over every such behaviour. -/
abbrev ExecBeh := ToolName → ToolArgs → Canvas → ExecOutcome

/-- The concrete `DISPATCH` executor behaviour of the source, given the
canvas dimensions and the PIL drawing primitives.  The mismatched-args
fallthrough cases are unreachable: `DISPATCH` pairs each tool with the
args model that `validateArgs` produces for it. -/
def realBeh (pil : PilOps) (w h : Nat) : ExecBeh := fun tn args c =>
  match tn, args with
  | .set_pixel, .setPixel a => execute_set_pixel c a
  | .fill_rect, .fillRect a => execute_fill_rect c a
  | .set_palette, .setPalette a => execute_set_palette c a
  | .seal_canvas, .sealCanvas a => execute_seal_canvas c a
  | .draw_line, .drawLine a => execute_draw_line pil c a
  | .draw_circle, .drawCircle a => execute_draw_circle pil c a
  | .flood_fill, .floodFill a => execute_flood_fill pil c a
  | .gradient_fill, .gradientFill a => execute_gradient_fill c a
  | .dither, .dither a => execute_dither c a
  | .mirror, .mirror a => execute_mirror w h c a
  | .rotate, .rotate a => execute_rotate pil c a
  | _, _ => (c, .error "dispatch mismatch")

/-- `ToolHarness._run_and_record`: run the executor, catch any exception
as a failed result; on success increment the counter and, for
`seal_canvas`, set the sealed flag. -/
def runAndRecord (beh : ExecBeh) (s : HarnessState) (nStr : String)
    (tn : ToolName) (args : ToolArgs) : ToolCallResult × HarnessState :=
  match beh tn args s.canvas with
  | (c', .error exc) =>
      (⟨nStr, false, "Execution error: " ++ exc⟩, { s with canvas := c' })
  | (c', .ok msg) =>
      (⟨nStr, true, msg⟩,
       { canvas := c',
         tool_calls_executed := s.tool_calls_executed + 1,
         sealed := if tn = ToolName.seal_canvas then true else s.sealed })

/-- `ToolHarness.execute`.  The `Except` layer carries the one statement
on this path that Python does not guard with `try` — the
`ToolName(tool_name_str)` conversion after the precondition phase; every
guarded failure is returned as data inside `.ok`. -/
def execute (cfg : HarnessConfig) (beh : ExecBeh) (s : HarnessState)
    (n : String) (raw : RawArgs) : Except String (ToolCallResult × HarnessState) :=
  match validatePreconditions cfg s n with
  | some r => .ok (r, s)
  | none =>
    match toolNameOfString n with
    | none => .error ("ValueError: " ++ n ++ " is not a valid ToolName")
    | some tn =>
      match validateArgs tn raw with
      | .error e => .ok (⟨n, false, "Argument validation failed: " ++ e⟩, s)
      | .ok args =>
        match checkBounds cfg args with
        | some m => .ok (⟨n, false, m⟩, s)
        | none => .ok (runAndRecord beh s n tn args)

/-- State after one `execute` call (the result object is dropped). -/
def stepCall (cfg : HarnessConfig) (beh : ExecBeh) (s : HarnessState)
    (c : String × RawArgs) : HarnessState :=
  match execute cfg beh s c.1 c.2 with
  | .ok (_, s') => s'
  | .error _ => s

/-- State after a sequence of `execute` calls. -/
def runCalls (cfg : HarnessConfig) (beh : ExecBeh) (s : HarnessState)
    (calls : List (String × RawArgs)) : HarnessState :=
  calls.foldl (stepCall cfg beh) s

/-- A Boolean marker for the failure modes detected before the executor
is dispatched: precondition failures, argument-validation failures and
bounds failures. -/
def preDispatchFail (cfg : HarnessConfig) (s : HarnessState) (n : String)
    (raw : RawArgs) : Bool :=
  (validatePreconditions cfg s n).isSome ||
    (match toolNameOfString n with
     | none => true
     | some tn =>
       match validateArgs tn raw with
       | .error _ => true
       | .ok args => (checkBounds cfg args).isSome)

/-! ## Generation orchestrator (`generation_orchestrator.py`)

The tool-execution loop is embedded directly over the harness; the
surrounding I/O (DB, Redis, LLM transport) is abstracted to an
environment describing the outcome of each external step. -/

/-- `CHECKPOINT_INTERVAL = 50`. -/
def CHECKPOINT_INTERVAL : Nat := 50

/-- One tool call returned by the LLM client. -/
structure OrchToolCall where
  tool_name : String
  arguments : RawArgs

/-- `GenerationOrchestrator._process_tool_call`: execute through the
harness, then checkpoint when the running counter is a positive multiple
of `CHECKPOINT_INTERVAL`.  The second component records the counter value
at each checkpoint committed so far. -/
def processToolCall (cfg : HarnessConfig) (beh : ExecBeh)
    (st : HarnessState × List Nat) (call : OrchToolCall) : HarnessState × List Nat :=
  let s' := stepCall cfg beh st.1 (call.tool_name, call.arguments)
  if 0 < s'.tool_calls_executed ∧ s'.tool_calls_executed % CHECKPOINT_INTERVAL = 0 then
    (s', st.2 ++ [s'.tool_calls_executed])
  else
    (s', st.2)

/-- The loop of `GenerationOrchestrator._execute_tools`: process each
call in order, stopping early once the harness is sealed. -/
def executeToolsLoop (cfg : HarnessConfig) (beh : ExecBeh) :
    HarnessState × List Nat → List OrchToolCall → HarnessState × List Nat
  | st, [] => st
  | st, c :: rest =>
    let st' := processToolCall cfg beh st c
    if st'.1.sealed then st' else executeToolsLoop cfg beh st' rest

/-- Resolved generation tier configuration (`TierConfig`). -/
structure TierConfig where
  canvas_width : Nat
  canvas_height : Nat
  credit_cost : Nat
  tool_budget_soft : Nat
  tool_budget_hard : Nat
  job_timeout_seconds : Nat
  allowed_tools : List String
deriving Repr, DecidableEq

/-- The fields of a loaded `art_generation_jobs` row the run uses. -/
structure JobRow where
  user_id : Nat
  generation_tier : String
  status : String
deriving Repr, DecidableEq

/-- Outcomes of the external steps of one orchestrator run: the job row
(if found), the tier lookup, and whether any exception is raised after
`_initialise` has returned (LLM transport/timeout, checkpoint commit,
file I/O, persistence — all covered by the single top-level handler). -/
structure OrchEnv where
  job : Option JobRow
  tiers : String → Option TierConfig
  failAfterInit : Option String

/-- What one run did to the outside world: whether `set_failed` ran,
whether the job completed, and every `refund_credits(user, amount)` call
issued (`refund_credits` delegates to `add_credits`, crediting exactly
`amount` once). -/
structure RunOutcome where
  markedFailed : Bool
  completed : Bool
  refunds : List (Nat × Nat)
deriving Repr, DecidableEq

/-- `GenerationOrchestrator._initialise`: load the job, require status
`pending`, load the tier; any failure raises before a `JobContext`
exists. -/
def initialiseJob (env : OrchEnv) : Except String (Nat × TierConfig) :=
  match env.job with
  | none => .error "Job not found"
  | some j =>
    if j.status ≠ "pending" then .error ("Job has unexpected status: " ++ j.status)
    else
      match env.tiers j.generation_tier with
      | none => .error ("Tier " ++ j.generation_tier ++ " not found")
      | some t => .ok (j.user_id, t)

/-- `GenerationOrchestrator.run` with its single top-level handler
(`_handle_failure`): on any exception, mark the job failed; refund the
tier's credit cost only when the `JobContext` was constructed (`ctx` is
not `None`), i.e. only when `_initialise` succeeded. -/
def orchestratorRun (env : OrchEnv) : RunOutcome :=
  match initialiseJob env with
  | .error _ => { markedFailed := true, completed := false, refunds := [] }
  | .ok (user, tier) =>
    match env.failAfterInit with
    | some _ =>
        { markedFailed := true, completed := false,
          refunds := [(user, tier.credit_cost)] }
    | none => { markedFailed := false, completed := true, refunds := [] }

/-! ## Watermark encoder (`watermark.py`)

Images are embedded as their pixel list in raster order (row-major,
left-to-right, top-to-bottom), which is exactly the `for y: for x:`
iteration order of the source.  The two UUIDs are embedded as their
16-byte big-endian representations (`uuid.bytes`), a bijection. -/

/-- An RGB image: dimensions and pixels in raster order
(`pix.length = width * height`, stated as a hypothesis where needed). -/
structure Img where
  width : Nat
  height : Nat
  pix : List Pix

/-- Bit `i` (MSB-first within each byte) of a byte string:
`(data[i // 8] >> (7 - i % 8)) & 1`. -/
def msbBit (data : List Nat) (i : Nat) : Nat :=
  (data.getD (i / 8) 0 >>> (7 - i % 8)) &&& 1

/-- The pixel loop of `WatermarkEncoder.encode`: pixel `i` in raster
order receives data bit `i` in its red LSB while `i < 8 * len(data)`;
once bits run out the method returns and the remaining pixels are
untouched. -/
def encodePix (data : List Nat) : Nat → List Pix → List Pix
  | _, [] => []
  | i, p :: rest =>
    if i < 8 * data.length then
      { p with r := (p.r &&& 0xFE) ||| msbBit data i } :: encodePix data (i + 1) rest
    else
      p :: rest

/-- `WatermarkEncoder.encode(image, art_id, owner_id)`:
`data = art_id.bytes + owner_id.bytes` (32 bytes). -/
def wmEncode (image : Img) (art_id owner_id : List Nat) : Img :=
  { image with pix := encodePix (art_id ++ owner_id) 0 image.pix }

/-- The byte-assembly loop of `WatermarkEncoder.decode`:
`data[i // 8] |= bits[i] << (7 - i % 8)` restricted to byte `k`, starting
from `bytearray(32)`'s zero byte. -/
def decodeByte (bits : List Nat) (k : Nat) : Nat :=
  (List.range 8).foldl (fun acc j => acc ||| (bits.getD (8 * k + j) 0 <<< (7 - j))) 0

/-- `WatermarkEncoder.decode(image)`: collect the red LSB of the first
256 pixels in raster order, reassemble 32 bytes, split 16/16.
(With fewer than 256 pixels the Python code would raise `IndexError`;
the claims only concern images with at least 256 pixels.) -/
def wmDecode (image : Img) : List Nat × List Nat :=
  let bits := (image.pix.take 256).map (fun p => p.r &&& 1)
  let data := (List.range 32).map (decodeByte bits)
  (data.take 16, data.drop 16)

/-! ## Authenticity sealer (`authenticity.py`) -/

/-- `SealMetadata`. -/
structure SealMetadata where
  art_id : String
  creator_id : String
  model_name : String
  key_version : Nat
deriving Repr, DecidableEq

/-- The cryptographic primitives (`hashlib.sha256`, `hmac.new(...,
sha256)`) are library code outside the repository; theorems quantify
over them. -/
structure CryptoPrims where
  sha256hex : List Nat → String
  hmacSha256hex : String → String → String

/-- The exact string that is MACed:
`f"{generation_hash}:{art_id}:{creator_id}:{model_name}:{key_version}"`. -/
def sealMessage (generation_hash : String) (m : SealMetadata) : String :=
  generation_hash ++ ":" ++ m.art_id ++ ":" ++ m.creator_id ++ ":"
    ++ m.model_name ++ ":" ++ toString m.key_version

/-- The key `AuthenticityManager.create_seal` hands to `hmac.new`: the
single configured `settings.HMAC_KEY`, whatever the metadata (and in
particular whatever `metadata.key_version`) is. -/
def macKeyUsed (hmacKeySetting : String) (_m : SealMetadata) : String :=
  hmacKeySetting

/-- Modelled from the spec: `seal = keyed_mac(key[metadata.key_version], ...)`
— the MAC key selected from a version-indexed keyring, as §4.5 describes;
no such keyring exists in the source (`Settings` holds one `HMAC_KEY`). -/
def macKeyUsedSpec (keyring : Nat → String) (m : SealMetadata) : String :=
  keyring m.key_version

/-- `AuthenticityManager.create_seal`: returns
`(seal_signature, generation_hash)`. -/
def create_seal (P : CryptoPrims) (hmacKeySetting : String)
    (image_bytes : List Nat) (m : SealMetadata) : String × String :=
  let generation_hash := P.sha256hex image_bytes
  (P.hmacSha256hex (macKeyUsed hmacKeySetting m) (sealMessage generation_hash m),
   generation_hash)

/-- `AuthenticityManager.verify_seal`: recompute and compare
(`hmac.compare_digest`; the constant-time aspect is timing behaviour,
functionally it is string equality). -/
def verify_seal (P : CryptoPrims) (hmacKeySetting : String)
    (image_bytes : List Nat) (m : SealMetadata) (seal_signature : String) : Bool :=
  seal_signature == (create_seal P hmacKeySetting image_bytes m).1


/-! ## Concrete fixtures used by witnesses -/

/-- A benign executor behaviour: leave the canvas alone and succeed. -/
def behTrivial : ExecBeh := fun _ _ c => (c, Except.ok "done")

/-- A tier with `tool_budget_hard = 0` (exhausted from the start). -/
def cfgBudget0 : HarnessConfig :=
  { canvas_width := 4, canvas_height := 4,
    allowed_tools := ["set_pixel", "seal_canvas"], tool_budget_hard := 0 }

/-- A small tier with some budget headroom. -/
def cfgSmall : HarnessConfig :=
  { canvas_width := 4, canvas_height := 4,
    allowed_tools := ["set_pixel", "seal_canvas"], tool_budget_hard := 5 }

/-- Scenario-D tier: 16x16 canvas allowing `fill_rect`. -/
def cfg16 : HarnessConfig :=
  { canvas_width := 16, canvas_height := 16,
    allowed_tools := ["fill_rect"], tool_budget_hard := 10 }

/-- Raw arguments for `set_pixel(0, 0, 255, 0, 0)`. -/
def rawSetPixel00 : RawArgs :=
  [("x", .jint 0), ("y", .jint 0), ("r", .jint 255), ("g", .jint 0), ("b", .jint 0)]

/-- A harness state that has already been sealed. -/
def sealedState : HarnessState :=
  { canvas := fun _ _ => ⟨0, 0, 0⟩, tool_calls_executed := 1, sealed := true }

/-- The state after one successful `seal_canvas` call on a fresh
`cfgSmall` harness. -/
def postSealState : HarnessState :=
  { canvas := fun _ _ => ⟨0, 0, 0⟩, tool_calls_executed := 1, sealed := true }

/-- Scenario-D raw arguments: `fill_rect(x1=0, y1=0, x2=16, y2=3, ...)`. -/
def rawFillRectD : RawArgs :=
  [("x1", .jint 0), ("y1", .jint 0), ("x2", .jint 16), ("y2", .jint 3),
   ("r", .jint 1), ("g", .jint 2), ("b", .jint 3)]


/-- Raw arguments for a `fill_rect` call with the given machine-int
field values. -/
def mkFillRectRaw (x1 y1 x2 y2 r g b : Int) : RawArgs :=
  [("x1", .jint x1), ("y1", .jint y1), ("x2", .jint x2), ("y2", .jint y2),
   ("r", .jint r), ("g", .jint g), ("b", .jint b)]

/-- Reversed-corner `fill_rect` raw arguments (all coordinates inside a
16x16 canvas, but `x2 < x1`). -/
def rawFillRectRev : RawArgs := mkFillRectRaw 4 0 2 3 5 6 7

/-- Inert PIL drawing primitives (their geometry is irrelevant to every
claim; witnesses only exercise loop-based executors). -/
def pilTrivial : PilOps :=
  { line := fun _ _ _ _ _ c => c,
    ellipseOutline := fun _ _ _ _ _ c => c,
    ellipseFill := fun _ _ _ _ _ c => c,
    floodfill := fun _ _ _ c => c,
    rotateImg := fun _ c => c }

/-- Scenario-A tier of the spec: 16x16 canvas, `tool_budget_hard = 5`,
allowing `set_pixel` and `seal_canvas`. -/
def tierScenarioA : HarnessConfig :=
  { canvas_width := 16, canvas_height := 16,
    allowed_tools := ["set_pixel", "seal_canvas"], tool_budget_hard := 5 }

/-- The same tier with `tool_budget_hard = 200`, as in the repository's
own checkpoint test. -/
def tierScenario200 : HarnessConfig :=
  { canvas_width := 16, canvas_height := 16,
    allowed_tools := ["set_pixel", "seal_canvas"], tool_budget_hard := 200 }

/-- The 120 `set_pixel` calls (as issued in the repository's checkpoint
test) followed by `seal_canvas`. -/
def scenarioCalls : List OrchToolCall :=
  ((List.range 120).map (fun i =>
    { tool_name := "set_pixel",
      arguments := [("x", .jint (Int.ofNat (i % 16))), ("y", .jint (Int.ofNat (i / 16))),
                    ("r", .jint 100), ("g", .jint 100), ("b", .jint 100)] }))
    ++ [{ tool_name := "seal_canvas", arguments := [] }]

/-- An environment whose job lookup finds nothing. -/
def envJobNotFound : OrchEnv :=
  { job := none, tiers := fun _ => none, failAfterInit := none }

/-- The `basic` tier used in the repository's failure-refund test. -/
def tierBasic : TierConfig :=
  { canvas_width := 16, canvas_height := 16, credit_cost := 10,
    tool_budget_soft := 80, tool_budget_hard := 100, job_timeout_seconds := 300,
    allowed_tools := ["set_pixel", "seal_canvas"] }

/-- An environment where initialisation succeeds and the LLM transport
then raises. -/
def envLlmFail : OrchEnv :=
  { job := some { user_id := 7, generation_tier := "basic", status := "pending" },
    tiers := fun t => if t = "basic" then some tierBasic else none,
    failAfterInit := some "LLM connection failed" }

/-- A demonstration version-indexed keyring (what the spec describes). -/
def demoKeyring : Nat → String := fun v => "key-v" ++ toString v

/-- Seal metadata at key version 1. -/
def metaV1 : SealMetadata :=
  { art_id := "art-1", creator_id := "user-1", model_name := "ollama", key_version := 1 }

/-- The same seal metadata at key version 2. -/
def metaV2 : SealMetadata :=
  { art_id := "art-1", creator_id := "user-1", model_name := "ollama", key_version := 2 }

/-- A 16x16 all-black image (exactly 256 pixels). -/
def imgW : Img := { width := 16, height := 16, pix := List.replicate 256 ⟨0, 0, 0⟩ }

/-- A concrete 16-byte identifier. -/
def idBytesA : List Nat := List.replicate 16 7

/-- Another concrete 16-byte identifier. -/
def idBytesB : List Nat := List.range 16

/-! ## Harness lemmas -/

/-- Every result produced by the precondition phase is a failure. -/
lemma validatePreconditions_some_success (cfg : HarnessConfig) (s : HarnessState)
    (n : String) (r : ToolCallResult) (h : validatePreconditions cfg s n = some r) :
    r.success = false := by
  unfold validatePreconditions at h
  cases htn : toolNameOfString n with
  | none =>
    simp only [htn] at h
    cases h
    rfl
  | some tn =>
    simp only [htn] at h
    split_ifs at h <;> (cases h; rfl)

/-- When the precondition phase passes, the name is known, the harness is
unsealed, the tool is tier-allowed and the budget is not exhausted. -/
lemma validatePreconditions_none (cfg : HarnessConfig) (s : HarnessState)
    (n : String) (h : validatePreconditions cfg s n = none) :
    ∃ tn, toolNameOfString n = some tn ∧ s.sealed = false ∧
      cfg.allowed_tools.contains n = true ∧
      s.tool_calls_executed < cfg.tool_budget_hard := by
  unfold validatePreconditions at h
  cases htn : toolNameOfString n with
  | none => simp only [htn] at h; cases h
  | some tn =>
    simp only [htn] at h
    split_ifs at h with h1 h2 h3 <;> try (cases h)
    refine ⟨tn, rfl, ?_, ?_, by omega⟩
    · cases hsb : s.sealed with
      | false => rfl
      | true => exact absurd hsb h1
    · cases hcb : cfg.allowed_tools.contains n with
      | true => rfl
      | false => exact absurd hcb h2

/-- An exhausted budget makes the precondition phase fail (whatever
earlier check fires first). -/
lemma validatePreconditions_exhausted (cfg : HarnessConfig) (s : HarnessState)
    (n : String) (hb : cfg.tool_budget_hard ≤ s.tool_calls_executed) :
    ∃ r, validatePreconditions cfg s n = some r := by
  cases h : validatePreconditions cfg s n with
  | some r => exact ⟨r, rfl⟩
  | none =>
    obtain ⟨tn, -, -, -, hlt⟩ := validatePreconditions_none cfg s n h
    omega

/-- With the budget exhausted and every earlier gate passing, the failure
is precisely the budget-exhausted result. -/
lemma validatePreconditions_budget (cfg : HarnessConfig) (s : HarnessState)
    (n : String) (tn : ToolName) (htn : toolNameOfString n = some tn)
    (hs : s.sealed = false) (ha : cfg.allowed_tools.contains n = true)
    (hb : cfg.tool_budget_hard ≤ s.tool_calls_executed) :
    validatePreconditions cfg s n
      = some ⟨n, false, budgetMsg s.tool_calls_executed cfg.tool_budget_hard⟩ := by
  unfold validatePreconditions
  simp only [htn]
  rw [if_neg (by simp [hs]), if_neg (by rw [ha]; exact fun hf => Bool.noConfusion hf), if_pos hb]

/-- With the harness sealed, the precondition phase fails for every name. -/
lemma validatePreconditions_sealed (cfg : HarnessConfig) (s : HarnessState)
    (n : String) (hs : s.sealed = true) :
    ∃ r, validatePreconditions cfg s n = some r := by
  unfold validatePreconditions
  cases htn : toolNameOfString n with
  | none => exact ⟨⟨n, false, unknownToolMsg n⟩, rfl⟩
  | some tn => exact ⟨⟨n, false, sealedMsg⟩, by simp [hs]⟩

/-- `execute` on a precondition failure returns it with the state
untouched. -/
lemma execute_eq_of_pre_some (cfg : HarnessConfig) (beh : ExecBeh)
    (s : HarnessState) (n : String) (raw : RawArgs) (r0 : ToolCallResult)
    (hpre : validatePreconditions cfg s n = some r0) :
    execute cfg beh s n raw = .ok (r0, s) := by
  unfold execute
  simp only [hpre]

/-- `execute` on an argument-validation failure returns a failed result
with the state untouched. -/
lemma execute_eq_of_args_error (cfg : HarnessConfig) (beh : ExecBeh)
    (s : HarnessState) (n : String) (raw : RawArgs) (tn : ToolName) (e : String)
    (hpre : validatePreconditions cfg s n = none)
    (htn : toolNameOfString n = some tn)
    (hv : validateArgs tn raw = .error e) :
    execute cfg beh s n raw
      = .ok (⟨n, false, "Argument validation failed: " ++ e⟩, s) := by
  unfold execute
  simp only [hpre]
  simp only [htn]
  simp only [hv]

/-- `execute` on a bounds failure returns the bounds message with the
state untouched. -/
lemma execute_eq_of_bounds_some (cfg : HarnessConfig) (beh : ExecBeh)
    (s : HarnessState) (n : String) (raw : RawArgs) (tn : ToolName)
    (args : ToolArgs) (m : String)
    (hpre : validatePreconditions cfg s n = none)
    (htn : toolNameOfString n = some tn)
    (hv : validateArgs tn raw = .ok args)
    (hbd : checkBounds cfg args = some m) :
    execute cfg beh s n raw = .ok (⟨n, false, m⟩, s) := by
  unfold execute
  simp only [hpre]
  simp only [htn]
  simp only [hv]
  simp only [hbd]

/-- `execute` dispatches to the executor exactly when every earlier stage
passes. -/
lemma execute_eq_of_dispatch (cfg : HarnessConfig) (beh : ExecBeh)
    (s : HarnessState) (n : String) (raw : RawArgs) (tn : ToolName)
    (args : ToolArgs)
    (hpre : validatePreconditions cfg s n = none)
    (htn : toolNameOfString n = some tn)
    (hv : validateArgs tn raw = .ok args)
    (hbd : checkBounds cfg args = none) :
    execute cfg beh s n raw = .ok (runAndRecord beh s n tn args) := by
  unfold execute
  simp only [hpre]
  simp only [htn]
  simp only [hv]
  simp only [hbd]

/-- Inversion of a completed `execute` call: either a pre-dispatch
failure that returned the state untouched, or a successful executor run,
or an executor exception caught as a failed result. -/
lemma execute_ok_inv (cfg : HarnessConfig) (beh : ExecBeh) (s : HarnessState)
    (n : String) (raw : RawArgs) (r : ToolCallResult) (s' : HarnessState)
    (h : execute cfg beh s n raw = .ok (r, s')) :
    (s' = s ∧ r.success = false) ∨
    (∃ tn args c' msg,
       validatePreconditions cfg s n = none ∧
       toolNameOfString n = some tn ∧
       validateArgs tn raw = .ok args ∧
       checkBounds cfg args = none ∧
       beh tn args s.canvas = (c', Except.ok msg) ∧
       r = ⟨n, true, msg⟩ ∧
       s'.canvas = c' ∧
       s'.tool_calls_executed = s.tool_calls_executed + 1 ∧
       s'.sealed = (if tn = ToolName.seal_canvas then true else s.sealed)) ∨
    (∃ tn args c' exc,
       validatePreconditions cfg s n = none ∧
       toolNameOfString n = some tn ∧
       validateArgs tn raw = .ok args ∧
       checkBounds cfg args = none ∧
       beh tn args s.canvas = (c', Except.error exc) ∧
       r = ⟨n, false, "Execution error: " ++ exc⟩ ∧
       s'.canvas = c' ∧
       s'.tool_calls_executed = s.tool_calls_executed ∧
       s'.sealed = s.sealed) := by
  cases hpre : validatePreconditions cfg s n with
  | some r0 =>
    have hx := execute_eq_of_pre_some cfg beh s n raw r0 hpre
    rw [h] at hx
    cases hx
    exact Or.inl ⟨rfl, validatePreconditions_some_success cfg s n r hpre⟩
  | none =>
    obtain ⟨tn, htn, -, -, -⟩ := validatePreconditions_none cfg s n hpre
    cases hv : validateArgs tn raw with
    | error e =>
      have hx := execute_eq_of_args_error cfg beh s n raw tn e hpre htn hv
      rw [h] at hx
      cases hx
      exact Or.inl ⟨rfl, rfl⟩
    | ok args =>
      cases hbd : checkBounds cfg args with
      | some m =>
        have hx := execute_eq_of_bounds_some cfg beh s n raw tn args m hpre htn hv hbd
        rw [h] at hx
        cases hx
        exact Or.inl ⟨rfl, rfl⟩
      | none =>
        have hx := execute_eq_of_dispatch cfg beh s n raw tn args hpre htn hv hbd
        rw [h] at hx
        unfold runAndRecord at hx
        cases hbeh : beh tn args s.canvas with
        | mk c' out =>
          rw [hbeh] at hx
          cases out with
          | error exc =>
            simp only at hx
            cases hx
            exact Or.inr (Or.inr
              ⟨tn, args, c', exc, rfl, htn, hv, hbd, hbeh, rfl, rfl, rfl, rfl⟩)
          | ok msg =>
            simp only at hx
            cases hx
            exact Or.inr (Or.inl
              ⟨tn, args, c', msg, rfl, htn, hv, hbd, hbeh, rfl, rfl, rfl, rfl⟩)

/-- One step never decreases the counter, and increments it only with
budget headroom. -/
lemma execute_counter_step (cfg : HarnessConfig) (beh : ExecBeh) (s : HarnessState)
    (n : String) (raw : RawArgs) (r : ToolCallResult) (s' : HarnessState)
    (h : execute cfg beh s n raw = .ok (r, s')) :
    s.tool_calls_executed ≤ s'.tool_calls_executed ∧
      s'.tool_calls_executed ≤ s.tool_calls_executed + 1 ∧
      (s'.tool_calls_executed = s.tool_calls_executed + 1 →
        s.tool_calls_executed < cfg.tool_budget_hard) := by
  rcases execute_ok_inv cfg beh s n raw r s' h with
    ⟨hEq, -⟩ | ⟨tn, args, c', msg, hpre, -, -, -, -, -, -, hcount, -⟩
      | ⟨tn, args, c', exc, -, -, -, -, -, -, -, hcount, -⟩
  · rw [hEq]; omega
  · obtain ⟨-, -, -, -, hlt⟩ := validatePreconditions_none cfg s n hpre
    rw [hcount]
    exact ⟨Nat.le_succ _, Nat.le.refl, fun _ => hlt⟩
  · rw [hcount]; omega

/-- `stepCall` after a completed `execute` is its post-state. -/
lemma stepCall_eq_ok (cfg : HarnessConfig) (beh : ExecBeh) (s : HarnessState)
    (c : String × RawArgs) (r : ToolCallResult) (s' : HarnessState)
    (hx : execute cfg beh s c.1 c.2 = .ok (r, s')) :
    stepCall cfg beh s c = s' := by
  unfold stepCall
  rw [hx]

/-- `execute` never reaches the unguarded conversion error: the
precondition phase already guarantees the name is valid. -/
lemma execute_total_aux (cfg : HarnessConfig) (beh : ExecBeh) (s : HarnessState)
    (n : String) (raw : RawArgs) :
    ∃ r s', execute cfg beh s n raw = Except.ok (r, s') := by
  cases hpre : validatePreconditions cfg s n with
  | some r0 => exact ⟨r0, s, execute_eq_of_pre_some cfg beh s n raw r0 hpre⟩
  | none =>
    obtain ⟨tn, htn, -, -, -⟩ := validatePreconditions_none cfg s n hpre
    cases hv : validateArgs tn raw with
    | error e => exact ⟨_, _, execute_eq_of_args_error cfg beh s n raw tn e hpre htn hv⟩
    | ok args =>
      cases hbd : checkBounds cfg args with
      | some m =>
        exact ⟨_, _, execute_eq_of_bounds_some cfg beh s n raw tn args m hpre htn hv hbd⟩
      | none =>
        exact ⟨(runAndRecord beh s n tn args).1, (runAndRecord beh s n tn args).2,
          by rw [execute_eq_of_dispatch cfg beh s n raw tn args hpre htn hv hbd]⟩

/-- `stepCall` preserves the budget bound. -/
lemma stepCall_budget (cfg : HarnessConfig) (beh : ExecBeh) (s : HarnessState)
    (c : String × RawArgs)
    (h : s.tool_calls_executed ≤ cfg.tool_budget_hard) :
    (stepCall cfg beh s c).tool_calls_executed ≤ cfg.tool_budget_hard := by
  obtain ⟨r, s', hx⟩ := execute_total_aux cfg beh s c.1 c.2
  rw [stepCall_eq_ok cfg beh s c r s' hx]
  obtain ⟨hmono, hle, hinc⟩ := execute_counter_step cfg beh s c.1 c.2 r s' hx
  by_cases heq : s'.tool_calls_executed = s.tool_calls_executed + 1
  · have := hinc heq; omega
  · omega

/-- The budget bound holds after any sequence of calls. -/
lemma runCalls_budget (cfg : HarnessConfig) (beh : ExecBeh)
    (calls : List (String × RawArgs)) (s : HarnessState)
    (h : s.tool_calls_executed ≤ cfg.tool_budget_hard) :
    (runCalls cfg beh s calls).tool_calls_executed ≤ cfg.tool_budget_hard := by
  induction calls generalizing s with
  | nil => exact h
  | cons c rest ih =>
    exact ih (stepCall cfg beh s c) (stepCall_budget cfg beh s c h)

/-! ## Bounds-check lemmas -/

/-- The bounds loop accepts exactly when every coordinate is strictly
below its canvas dimension. -/
lemma checkBoundsList_none_iff (w h : Nat) (l : List (String × Axis × Nat)) :
    checkBoundsList w h l = none ↔
      ∀ fav ∈ l, (fav.2.1 = Axis.x → fav.2.2 < w) ∧ (fav.2.1 = Axis.y → fav.2.2 < h) := by
  induction l with
  | nil => simp [checkBoundsList]
  | cons head tail ih =>
    obtain ⟨f, ax, v⟩ := head
    cases ax with
    | x =>
      simp only [checkBoundsList]
      by_cases hv : w ≤ v
      · rw [if_pos hv]
        constructor
        · intro hcontr; cases hcontr
        · intro hall
          have h2 : v < w := (hall (f, .x, v) (List.mem_cons_self _ _)).1 rfl
          omega
      · rw [if_neg hv, ih]
        constructor
        · intro hall fav hmem
          rcases List.mem_cons.mp hmem with hEq | hmem2
          · subst hEq
            exact ⟨fun _ => show v < w by omega, fun hax => nomatch (hax : Axis.x = Axis.y)⟩
          · exact hall fav hmem2
        · intro hall fav hmem
          exact hall fav (List.mem_cons_of_mem _ hmem)
    | y =>
      simp only [checkBoundsList]
      by_cases hv : h ≤ v
      · rw [if_pos hv]
        constructor
        · intro hcontr; cases hcontr
        · intro hall
          have h2 : v < h := (hall (f, .y, v) (List.mem_cons_self _ _)).2 rfl
          omega
      · rw [if_neg hv, ih]
        constructor
        · intro hall fav hmem
          rcases List.mem_cons.mp hmem with hEq | hmem2
          · subst hEq
            exact ⟨(fun hax => nomatch (hax : Axis.y = Axis.x)), fun _ => show v < h by omega⟩
          · exact hall fav hmem2
        · intro hall fav hmem
          exact hall fav (List.mem_cons_of_mem _ hmem)

/-- A bounds-loop failure names a violating coordinate field and carries
its out-of-bounds message. -/
lemma checkBoundsList_some (w h : Nat) (l : List (String × Axis × Nat)) (m : String)
    (hsome : checkBoundsList w h l = some m) :
    ∃ f ax v, (f, ax, v) ∈ l ∧
      ((ax = Axis.x ∧ w ≤ v ∧ m = oobMsgW f v w) ∨
       (ax = Axis.y ∧ h ≤ v ∧ m = oobMsgH f v h)) := by
  induction l with
  | nil => cases hsome
  | cons head tail ih =>
    obtain ⟨f, ax, v⟩ := head
    cases ax with
    | x =>
      simp only [checkBoundsList] at hsome
      by_cases hv : w ≤ v
      · rw [if_pos hv] at hsome
        cases hsome
        exact ⟨f, .x, v, List.mem_cons_self _ _, Or.inl ⟨rfl, hv, rfl⟩⟩
      · rw [if_neg hv] at hsome
        obtain ⟨f2, ax2, v2, hmem, hp⟩ := ih hsome
        exact ⟨f2, ax2, v2, List.mem_cons_of_mem _ hmem, hp⟩
    | y =>
      simp only [checkBoundsList] at hsome
      by_cases hv : h ≤ v
      · rw [if_pos hv] at hsome
        cases hsome
        exact ⟨f, .y, v, List.mem_cons_self _ _, Or.inr ⟨rfl, hv, rfl⟩⟩
      · rw [if_neg hv] at hsome
        obtain ⟨f2, ax2, v2, hmem, hp⟩ := ih hsome
        exact ⟨f2, ax2, v2, List.mem_cons_of_mem _ hmem, hp⟩


/-! ## Fill-rect lemmas -/

/-- Reduction of a successful `Except` bind (definitional; stated for
`simp`). -/
lemma exceptBind_ok {a b : Type} (x : a) (f : a → Except String b) :
    (Except.ok x : Except String a) >>= f = f x := rfl

/-- Membership in the Python-style inclusive range. -/
lemma mem_rangeIncl (a b x : Nat) : x ∈ rangeIncl a b ↔ a ≤ x ∧ x ≤ b := by
  unfold rangeIncl
  rw [List.mem_range'_1]
  omega

/-- One row of `putpixel` writes. -/
lemma foldl_putpixel_row (xs : List Nat) (c : Canvas) (y : Nat) (p : Pix) (x2 y2 : Nat) :
    (xs.foldl (fun c x => putpixel c x y p) c) x2 y2
      = if x2 ∈ xs ∧ y2 = y then p else c x2 y2 := by
  induction xs generalizing c with
  | nil => simp
  | cons x rest ih =>
    rw [List.foldl_cons, ih]
    by_cases h1 : x2 ∈ rest ∧ y2 = y
    · rw [if_pos h1, if_pos ⟨List.mem_cons_of_mem _ h1.1, h1.2⟩]
    · rw [if_neg h1]
      unfold putpixel
      by_cases h2 : x2 = x ∧ y2 = y
      · rw [if_pos h2, if_pos ⟨List.mem_cons.mpr (Or.inl h2.1), h2.2⟩]
      · have hc : ¬(x2 ∈ x :: rest ∧ y2 = y) := by
          intro hcontr
          rcases List.mem_cons.mp hcontr.1 with hEq | hmem
          · exact h2 ⟨hEq, hcontr.2⟩
          · exact h1 ⟨hmem, hcontr.2⟩
        rw [if_neg h2, if_neg hc]

/-- The nested `fill_rect` loops write exactly the product of the two
ranges. -/
lemma foldl_fill_rect (ys xs : List Nat) (c : Canvas) (p : Pix) (x2 y2 : Nat) :
    (ys.foldl (fun c y => xs.foldl (fun c x => putpixel c x y p) c) c) x2 y2
      = if x2 ∈ xs ∧ y2 ∈ ys then p else c x2 y2 := by
  induction ys generalizing c with
  | nil => simp
  | cons y rest ih =>
    rw [List.foldl_cons, ih]
    by_cases h1 : x2 ∈ xs ∧ y2 ∈ rest
    · rw [if_pos h1, if_pos ⟨h1.1, List.mem_cons_of_mem _ h1.2⟩]
    · rw [if_neg h1, foldl_putpixel_row]
      by_cases h2 : x2 ∈ xs ∧ y2 = y
      · rw [if_pos h2, if_pos ⟨h2.1, List.mem_cons.mpr (Or.inl h2.2)⟩]
      · have hc : ¬(x2 ∈ xs ∧ y2 ∈ y :: rest) := by
          intro hcontr
          rcases List.mem_cons.mp hcontr.2 with hEq | hmem
          · exact h2 ⟨hcontr.1, hEq⟩
          · exact h1 ⟨hcontr.1, hmem⟩
        rw [if_neg h2, if_neg hc]

/-- Pixel-level characterisation of `execute_fill_rect`: exactly the
inclusive rectangle `[x1..x2] x [y1..y2]` receives the color. -/
lemma execute_fill_rect_canvas (c : Canvas) (a : FillRectArgs) (x y : Nat) :
    (execute_fill_rect c a).1 x y
      = if a.x1 ≤ x ∧ x ≤ a.x2 ∧ a.y1 ≤ y ∧ y ≤ a.y2
        then ⟨a.r, a.g, a.b⟩ else c x y := by
  unfold execute_fill_rect
  simp only
  rw [foldl_fill_rect]
  simp only [mem_rangeIncl]
  exact if_congr (by tauto) rfl rfl


/-! ## Orchestrator checkpoint lemmas -/

/-- Every checkpoint recorded by the tool loop is taken at a positive
multiple of `CHECKPOINT_INTERVAL` not exceeding the hard budget. -/
lemma executeToolsLoop_cp_inv (cfg : HarnessConfig) (beh : ExecBeh)
    (calls : List OrchToolCall) (st : HarnessState × List Nat)
    (hstate : st.1.tool_calls_executed ≤ cfg.tool_budget_hard)
    (hprev : ∀ c ∈ st.2,
        0 < c ∧ c % CHECKPOINT_INTERVAL = 0 ∧ c ≤ cfg.tool_budget_hard) :
    ∀ c ∈ (executeToolsLoop cfg beh st calls).2,
      0 < c ∧ c % CHECKPOINT_INTERVAL = 0 ∧ c ≤ cfg.tool_budget_hard := by
  induction calls generalizing st with
  | nil => simpa [executeToolsLoop] using hprev
  | cons call rest ih =>
    have hs2 : (stepCall cfg beh st.1
        (call.tool_name, call.arguments)).tool_calls_executed
          ≤ cfg.tool_budget_hard := stepCall_budget cfg beh st.1 _ hstate
    have hst2 : (processToolCall cfg beh st call).1.tool_calls_executed
        ≤ cfg.tool_budget_hard := by
      simp only [processToolCall]
      split_ifs <;> exact hs2
    have hcps : ∀ c ∈ (processToolCall cfg beh st call).2,
        0 < c ∧ c % CHECKPOINT_INTERVAL = 0 ∧ c ≤ cfg.tool_budget_hard := by
      simp only [processToolCall]
      split_ifs with hc
      · intro c hmem
        rcases List.mem_append.mp hmem with h1 | h2
        · exact hprev c h1
        · have hcgoal : c = (stepCall cfg beh st.1
              (call.tool_name, call.arguments)).tool_calls_executed := by
            simpa using h2
          rw [hcgoal]
          exact ⟨hc.1, hc.2, hs2⟩
      · intro c hmem
        exact hprev c hmem
    simp only [executeToolsLoop]
    split_ifs with hseal
    · exact hcps
    · exact ih (processToolCall cfg beh st call) hst2 hcps


/-! ## Watermark lemmas -/

set_option maxRecDepth 4000 in
/-- Setting the red LSB leaves the low bit equal to the embedded bit and
every higher red bit unchanged (channel values are 8-bit). -/
lemma enc_bit_facts :
    ∀ r < 256, ∀ bt < 2,
      (((r &&& 254) ||| bt) &&& 1 = bt) ∧ (((r &&& 254) ||| bt) >>> 1 = r >>> 1) := by
  decide

set_option maxRecDepth 4000 in
/-- Reassembling the eight MSB-first bits of a byte by shifted ors
recovers the byte. -/
lemma byte_roundtrip :
    ∀ B < 256, (List.range 8).foldl
        (fun acc j => acc ||| (((B >>> (7 - j)) &&& 1) <<< (7 - j))) 0 = B := by
  decide

/-- The encoding loop preserves the pixel count. -/
lemma encodePix_length (data : List Nat) (i : Nat) (l : List Pix) :
    (encodePix data i l).length = l.length := by
  induction l generalizing i with
  | nil => rfl
  | cons p rest ih =>
    unfold encodePix
    split_ifs
    · simp [ih]
    · rfl

/-- Pointwise characterisation of the encoding loop: pixel `j` receives
data bit `i0 + j` in its red LSB while bits remain, and is untouched
afterwards. -/
lemma encodePix_getD (data : List Nat) (i0 : Nat) (l : List Pix) (j : Nat) :
    (encodePix data i0 l).getD j default
      = if j < l.length ∧ i0 + j < 8 * data.length then
          { l.getD j default with
            r := ((l.getD j default).r &&& 254) ||| msbBit data (i0 + j) }
        else l.getD j default := by
  induction l generalizing i0 j with
  | nil => simp [encodePix]
  | cons p rest ih =>
    unfold encodePix
    by_cases hi : i0 < 8 * data.length
    · rw [if_pos hi]
      cases j with
      | zero =>
        rw [List.getD_cons_zero, List.getD_cons_zero,
          if_pos ⟨by simp, by omega⟩, Nat.add_zero]
      | succ j =>
        rw [List.getD_cons_succ, List.getD_cons_succ, ih (i0 + 1) j]
        have harith : i0 + 1 + j = i0 + (j + 1) := by omega
        rw [harith]
        apply if_congr ?_ rfl rfl
        simp only [List.length_cons]
        omega
    · rw [if_neg hi, if_neg (by omega)]

/-- Reading the red LSB of pixel `i` through `take`/`map`. -/
lemma getD_take_map_bit (l : List Pix) (nn i : Nat) (hi : i < nn) (hl : i < l.length) :
    ((l.take nn).map (fun p => p.r &&& 1)).getD i 0 = (l.getD i default).r &&& 1 := by
  have hlen : i < ((l.take nn).map (fun p => p.r &&& 1)).length := by
    simp [List.length_take]
    omega
  rw [List.getD_eq_getElem _ _ hlen, List.getElem_map, List.getElem_take,
    List.getD_eq_getElem l default hl]

/-! ## Claim theorems: harness invariants -/

/-- Claim C1: for every harness configuration, every executor behaviour
and every sequence of `execute` calls from a fresh harness,
`tool_calls_executed` never exceeds `tool_budget_hard`, and each single
call is monotonically non-decreasing on it; a call made with the budget
exhausted returns a failed result and leaves the state unchanged, and —
whenever the earlier gates (known name, unsealed, tier-allowed) pass, so
that the budget check itself fires, strictly before any execution — its
message is the budget-exhausted message. -/
theorem harness_budget_invariant :
    ∀ (cfg : HarnessConfig) (beh : ExecBeh) (calls : List (String × RawArgs)),
      (runCalls cfg beh (initState cfg) calls).tool_calls_executed ≤ cfg.tool_budget_hard
      ∧ ∀ (s : HarnessState) (n : String) (raw : RawArgs)
          (r : ToolCallResult) (s2 : HarnessState),
          execute cfg beh s n raw = .ok (r, s2) →
            s.tool_calls_executed ≤ s2.tool_calls_executed
            ∧ (cfg.tool_budget_hard ≤ s.tool_calls_executed →
                r.success = false ∧ s2 = s
                ∧ ∀ tn, toolNameOfString n = some tn → s.sealed = false →
                    cfg.allowed_tools.contains n = true →
                    r.message = budgetMsg s.tool_calls_executed cfg.tool_budget_hard) := by
  intro cfg beh calls
  constructor
  · exact runCalls_budget cfg beh calls (initState cfg) (Nat.zero_le _)
  · intro s n raw r s2 h
    refine ⟨(execute_counter_step cfg beh s n raw r s2 h).1, ?_⟩
    intro hexh
    obtain ⟨r0, hpre⟩ := validatePreconditions_exhausted cfg s n hexh
    have hx := execute_eq_of_pre_some cfg beh s n raw r0 hpre
    rw [h] at hx
    cases hx
    refine ⟨validatePreconditions_some_success cfg s n r hpre, rfl, ?_⟩
    intro tn htn hs ha
    have hb := validatePreconditions_budget cfg s n tn htn hs ha hexh
    rw [hpre] at hb
    cases hb
    rfl

/-- Witness for C1: with a zero budget, a sequence of calls keeps the
counter at `0 <= 0`, and the very first `set_pixel` call is rejected as a
failed result. -/
theorem harness_budget_invariant_witness :
    (runCalls cfgBudget0 behTrivial (initState cfgBudget0)
        [("set_pixel", rawSetPixel00)]).tool_calls_executed
      ≤ cfgBudget0.tool_budget_hard
    ∧ (⟨"set_pixel", false, budgetMsg 0 0⟩ : ToolCallResult).success = false := by
  have h := harness_budget_invariant cfgBudget0 behTrivial [("set_pixel", rawSetPixel00)]
  refine ⟨h.1, ?_⟩
  have h2 := h.2 (initState cfgBudget0) "set_pixel" rawSetPixel00
      ⟨"set_pixel", false, budgetMsg 0 0⟩ (initState cfgBudget0) rfl
  exact ((h2.2 (by decide)).1)

/-- Claim C2: once the harness is sealed, every `execute` call — any
name, any arguments — returns a failed result and leaves the entire
state unchanged; and a successful `seal_canvas` call is what sets the
flag, so `Sealed` is terminal. -/
theorem harness_sealed_terminal :
    (∀ (cfg : HarnessConfig) (beh : ExecBeh) (s : HarnessState) (n : String)
        (raw : RawArgs) (r : ToolCallResult) (s2 : HarnessState),
        s.sealed = true → execute cfg beh s n raw = .ok (r, s2) →
          r.success = false ∧ s2 = s)
    ∧ (∀ (cfg : HarnessConfig) (beh : ExecBeh) (s : HarnessState)
        (raw : RawArgs) (r : ToolCallResult) (s2 : HarnessState),
        execute cfg beh s "seal_canvas" raw = .ok (r, s2) → r.success = true →
          s2.sealed = true) := by
  constructor
  · intro cfg beh s n raw r s2 hsealed h
    obtain ⟨r0, hpre⟩ := validatePreconditions_sealed cfg s n hsealed
    have hx := execute_eq_of_pre_some cfg beh s n raw r0 hpre
    rw [h] at hx
    cases hx
    exact ⟨validatePreconditions_some_success cfg s n r hpre, rfl⟩
  · intro cfg beh s raw r s2 h hsucc
    rcases execute_ok_inv cfg beh s "seal_canvas" raw r s2 h with
      ⟨-, hfail⟩ | ⟨tn, args, c2, msg, -, htn, -, -, -, hr, -, -, hseal⟩
        | ⟨tn, args, c2, exc, -, -, -, -, -, hr, -⟩
    · rw [hsucc] at hfail; cases hfail
    · have htn2 : tn = ToolName.seal_canvas := by
        have hbase : toolNameOfString "seal_canvas" = some ToolName.seal_canvas := rfl
        rw [hbase] at htn
        cases htn
        rfl
      rw [hseal, htn2]
      simp
    · rw [hr] at hsucc
      cases hsucc

/-- Witness for C2: on a sealed harness a `set_pixel` call fails and
changes nothing; a successful `seal_canvas` on a fresh harness sets the
flag. -/
theorem harness_sealed_terminal_witness :
    ((⟨"set_pixel", false, sealedMsg⟩ : ToolCallResult).success = false
      ∧ sealedState.sealed = true)
    ∧ postSealState.sealed = true := by
  refine ⟨⟨?_, rfl⟩, ?_⟩
  · exact (harness_sealed_terminal.1 cfgSmall behTrivial sealedState "set_pixel"
      rawSetPixel00 ⟨"set_pixel", false, sealedMsg⟩ sealedState rfl rfl).1
  · exact harness_sealed_terminal.2 cfgSmall behTrivial (initState cfgSmall) []
      ⟨"seal_canvas", true, "done"⟩ postSealState rfl rfl

/-- Claim C10: failed calls are atomic no-ops on the bookkeeping state —
whenever `execute` returns `success = false`, `tool_calls_executed` and
the sealed flag are unchanged — and every failure detected before the
executor dispatch (unknown name, sealed, tier-disallowed, budget,
argument validation, bounds) leaves the whole state, canvas included,
unchanged. -/
theorem harness_failed_calls_noop :
    ∀ (cfg : HarnessConfig) (beh : ExecBeh) (s : HarnessState) (n : String)
      (raw : RawArgs) (r : ToolCallResult) (s2 : HarnessState),
      execute cfg beh s n raw = .ok (r, s2) →
        (r.success = false →
          s2.tool_calls_executed = s.tool_calls_executed ∧ s2.sealed = s.sealed)
        ∧ (preDispatchFail cfg s n raw = true → r.success = false ∧ s2 = s) := by
  intro cfg beh s n raw r s2 h
  constructor
  · intro hfail
    rcases execute_ok_inv cfg beh s n raw r s2 h with
      ⟨hEq, -⟩ | ⟨tn, args, c2, msg, -, -, -, -, -, hr, -⟩
        | ⟨tn, args, c2, exc, -, -, -, -, -, -, -, hcount, hseal⟩
    · rw [hEq]; exact ⟨rfl, rfl⟩
    · rw [hr] at hfail; cases hfail
    · exact ⟨hcount, hseal⟩
  · intro hpd
    unfold preDispatchFail at hpd
    cases hpre : validatePreconditions cfg s n with
    | some r0 =>
      have hx := execute_eq_of_pre_some cfg beh s n raw r0 hpre
      rw [h] at hx
      cases hx
      exact ⟨validatePreconditions_some_success cfg s n r hpre, rfl⟩
    | none =>
      rw [hpre] at hpd
      simp only [Option.isSome_none, Bool.false_or] at hpd
      obtain ⟨tn, htn, -, -, -⟩ := validatePreconditions_none cfg s n hpre
      simp only [htn] at hpd
      cases hv : validateArgs tn raw with
      | error e =>
        have hx := execute_eq_of_args_error cfg beh s n raw tn e hpre htn hv
        rw [h] at hx
        cases hx
        exact ⟨rfl, rfl⟩
      | ok args =>
        simp only [hv] at hpd
        cases hbd : checkBounds cfg args with
        | none => simp only [hbd] at hpd; simp at hpd
        | some m =>
          have hx := execute_eq_of_bounds_some cfg beh s n raw tn args m hpre htn hv hbd
          rw [h] at hx
          cases hx
          exact ⟨rfl, rfl⟩

/-- Witness for C10: an unknown tool name fails and leaves the fresh
state untouched. -/
theorem harness_failed_calls_noop_witness :
    (⟨"nonexistent", false, unknownToolMsg "nonexistent"⟩ : ToolCallResult).success = false
    ∧ (initState cfgSmall).tool_calls_executed = 0 := by
  have h := harness_failed_calls_noop cfgSmall behTrivial (initState cfgSmall)
    "nonexistent" [] ⟨"nonexistent", false, unknownToolMsg "nonexistent"⟩
    (initState cfgSmall) rfl
  exact ⟨(h.2 (by decide)).1, rfl⟩

/-- Claim C8: `execute` is total — for every configuration, executor
behaviour (exceptions included), harness state, command-name string and
raw-argument dictionary it returns a `ToolCallResult`; no failure mode
propagates as an exception. -/
theorem harness_execute_never_raises :
    ∀ (cfg : HarnessConfig) (beh : ExecBeh) (s : HarnessState) (n : String)
      (raw : RawArgs), ∃ r s2, execute cfg beh s n raw = Except.ok (r, s2) := by
  intro cfg beh s n raw
  exact execute_total_aux cfg beh s n raw

/-- Claim C9: the generic bounds check accepts exactly the argument sets
whose every declared coordinate is strictly below its canvas dimension
(so `v = d - 1` passes and `v >= d` does not); when some coordinate
violates its bound, `execute` returns a failed result carrying the
out-of-bounds message of the first violating field, with the state
untouched and no executor involvement (the conclusion determines the
result for every executor behaviour); and every bounds-failure message
names a violating field and its dimension. -/
theorem coordinate_bounds_check :
    (∀ (cfg : HarnessConfig) (args : ToolArgs),
        checkBounds cfg args = none ↔
          ∀ fav ∈ coordSpecs args,
            (fav.2.1 = Axis.x → fav.2.2 < cfg.canvas_width) ∧
            (fav.2.1 = Axis.y → fav.2.2 < cfg.canvas_height))
    ∧ (∀ (cfg : HarnessConfig) (beh : ExecBeh) (s : HarnessState) (n : String)
          (raw : RawArgs) (tn : ToolName) (args : ToolArgs) (m : String),
        validatePreconditions cfg s n = none →
        toolNameOfString n = some tn →
        validateArgs tn raw = .ok args →
        checkBounds cfg args = some m →
        execute cfg beh s n raw = .ok (⟨n, false, m⟩, s))
    ∧ (∀ (cfg : HarnessConfig) (args : ToolArgs) (m : String),
        checkBounds cfg args = some m →
        ∃ f ax v, (f, ax, v) ∈ coordSpecs args ∧
          ((ax = Axis.x ∧ cfg.canvas_width ≤ v ∧ m = oobMsgW f v cfg.canvas_width) ∨
           (ax = Axis.y ∧ cfg.canvas_height ≤ v ∧ m = oobMsgH f v cfg.canvas_height))) := by
  refine ⟨?_, ?_, ?_⟩
  · intro cfg args
    exact checkBoundsList_none_iff cfg.canvas_width cfg.canvas_height (coordSpecs args)
  · intro cfg beh s n raw tn args m hpre htn hv hbd
    exact execute_eq_of_bounds_some cfg beh s n raw tn args m hpre htn hv hbd
  · intro cfg args m hbd
    exact checkBoundsList_some cfg.canvas_width cfg.canvas_height (coordSpecs args) m hbd

/-- Witness for C9 (spec scenario D): `fill_rect(x1=0, y1=0, x2=16, y2=3)`
on a 16-wide canvas is rejected with the `x2` out-of-bounds message and
no state change, while the same rectangle with `x2 = y2 = 15 = d - 1`
passes the bounds check. -/
theorem coordinate_bounds_check_witness :
    execute cfg16 behTrivial (initState cfg16) "fill_rect" rawFillRectD
      = .ok (⟨"fill_rect", false, oobMsgW "x2" 16 16⟩, initState cfg16)
    ∧ checkBounds cfg16 (.fillRect ⟨0, 0, 15, 15, 1, 2, 3⟩) = none := by
  constructor
  · exact coordinate_bounds_check.2.1 cfg16 behTrivial (initState cfg16) "fill_rect"
      rawFillRectD ToolName.fill_rect (.fillRect ⟨0, 0, 16, 3, 1, 2, 3⟩)
      (oobMsgW "x2" 16 16) rfl rfl rfl rfl
  · exact (coordinate_bounds_check.1 cfg16 (.fillRect ⟨0, 0, 15, 15, 1, 2, 3⟩)).mpr
      (by decide)


/-- Claim C5 counterexample: a `fill_rect` call whose corners are all
inside a 16x16 canvas but given in reversed x-order (`x1=4, x2=2`) is
rejected by argument validation — it does not succeed, so the command is
not order-independent in its corners. -/
theorem fill_rect_order_cex :
    execute cfg16 behTrivial (initState cfg16) "fill_rect" rawFillRectRev
      = .ok (⟨"fill_rect", false,
          "Argument validation failed: x2 must be >= x1 and y2 must be >= y1 for fill_rect"⟩,
        initState cfg16) := rfl

/-- Claim C5 (amended): `fill_rect` requires `x2 >= x1` and `y2 >= y1` —
corners given in reversed order fail the schema's cross-field validator
(after the per-field checks pass) — and with ordered corners inside the
canvas the call succeeds and fills exactly the inclusive rectangle
`[x1..x2] x [y1..y2]`; the engine does not normalize corner order. -/
theorem fill_rect_requires_ordered_corners :
    (∀ (raw : RawArgs) (x1 y1 x2 y2 r g b : Int),
        extraFieldsOk raw ["x1", "y1", "x2", "y2", "r", "g", "b"] = true →
        reqIntGe raw "x1" 0 = .ok x1 → reqIntGe raw "y1" 0 = .ok y1 →
        reqIntGe raw "x2" 0 = .ok x2 → reqIntGe raw "y2" 0 = .ok y2 →
        reqChannel raw "r" = .ok r → reqChannel raw "g" = .ok g →
        reqChannel raw "b" = .ok b →
        (x2 < x1 ∨ y2 < y1) →
        validateArgs .fill_rect raw
          = .error "x2 must be >= x1 and y2 must be >= y1 for fill_rect")
    ∧ (∀ (pil : PilOps) (cfg : HarnessConfig) (s : HarnessState) (raw : RawArgs)
          (a : FillRectArgs),
        validatePreconditions cfg s "fill_rect" = none →
        validateArgs .fill_rect raw = .ok (.fillRect a) →
        checkBounds cfg (.fillRect a) = none →
        ∃ s2, execute cfg (realBeh pil cfg.canvas_width cfg.canvas_height) s
              "fill_rect" raw
            = .ok (⟨"fill_rect", true, fillRectMsg a⟩, s2)
          ∧ s2.tool_calls_executed = s.tool_calls_executed + 1
          ∧ s2.sealed = s.sealed
          ∧ ∀ x y, s2.canvas x y
              = if a.x1 ≤ x ∧ x ≤ a.x2 ∧ a.y1 ≤ y ∧ y ≤ a.y2
                then ⟨a.r, a.g, a.b⟩ else s.canvas x y) := by
  constructor
  · intro raw x1 y1 x2 y2 r g b hext hx1 hy1 hx2 hy2 hr hg hb horder
    have hval : validateFillRect raw
        = .error "x2 must be >= x1 and y2 must be >= y1 for fill_rect" := by
      unfold validateFillRect
      rw [hext]
      simp only [Bool.not_true, Bool.false_eq_true, if_false, hx1, hy1, hx2, hy2,
        hr, hg, hb, exceptBind_ok]
      rw [if_pos horder]
      rfl
    show Except.map ToolArgs.fillRect (validateFillRect raw) = _
    rw [hval]
    rfl
  · intro pil cfg s raw a hpre hv hbd
    have htn : toolNameOfString "fill_rect" = some ToolName.fill_rect := rfl
    have hx := execute_eq_of_dispatch cfg
      (realBeh pil cfg.canvas_width cfg.canvas_height) s "fill_rect" raw
      ToolName.fill_rect (.fillRect a) hpre htn hv hbd
    refine ⟨(runAndRecord (realBeh pil cfg.canvas_width cfg.canvas_height) s
        "fill_rect" ToolName.fill_rect (.fillRect a)).2, ?_, rfl, rfl, ?_⟩
    · rw [hx]; rfl
    · intro x y
      have hcv : (runAndRecord (realBeh pil cfg.canvas_width cfg.canvas_height) s
          "fill_rect" ToolName.fill_rect (.fillRect a)).2.canvas
            = (execute_fill_rect s.canvas a).1 := rfl
      rw [hcv, execute_fill_rect_canvas]

/-- Witness for C5: a concrete ordered call succeeds with the fill-rect
message, and the concrete reversed call is rejected. -/
theorem fill_rect_requires_ordered_corners_witness :
    (execute cfg16 (realBeh pilTrivial cfg16.canvas_width cfg16.canvas_height)
        (initState cfg16) "fill_rect" (mkFillRectRaw 1 1 3 2 9 8 7)).toOption.map
        (fun out => out.1)
      = some ⟨"fill_rect", true, fillRectMsg ⟨1, 1, 3, 2, 9, 8, 7⟩⟩
    ∧ validateArgs .fill_rect rawFillRectRev
        = .error "x2 must be >= x1 and y2 must be >= y1 for fill_rect" := by
  constructor
  · obtain ⟨s2, hx, -, -, -⟩ := fill_rect_requires_ordered_corners.2 pilTrivial cfg16
      (initState cfg16) (mkFillRectRaw 1 1 3 2 9 8 7) ⟨1, 1, 3, 2, 9, 8, 7⟩ rfl rfl rfl
    rw [hx]
    rfl
  · exact fill_rect_requires_ordered_corners.1 rawFillRectRev 4 0 2 3 5 6 7
      rfl rfl rfl rfl rfl rfl rfl rfl (Or.inl (by decide))


/-- Claim C7 counterexample: on the scenario-A tier of the spec
(`tool_budget_hard = 5`), 120 `set_pixel` calls followed by
`seal_canvas` produce no checkpoint at all — the success counter caps at
5 and never reaches 50, so the claimed 2 checkpoints (at 50 and 100) do
not occur. -/
theorem orchestrator_checkpoint_cex :
    (executeToolsLoop tierScenarioA (realBeh pilTrivial 16 16)
        (initState tierScenarioA, []) scenarioCalls).2 = [] := by decide

/-- Claim C7 (amended): a checkpoint is committed after each processed
call whose post-call count of successfully executed commands is a
positive multiple of `CHECKPOINT_INTERVAL = 50` (the condition is
re-evaluated after every call, so it can re-fire while a failed call
leaves the count resting at a multiple); every recorded checkpoint index
is such a multiple and never exceeds the hard budget; and on the tier
with `tool_budget_hard = 200` — the budget the repository's own
checkpoint test uses — the 120 `set_pixel` calls followed by
`seal_canvas` commit exactly 2 checkpoints, at counts 50 and 100, and no
third. -/
theorem orchestrator_checkpoint_interval :
    (∀ (cfg : HarnessConfig) (beh : ExecBeh) (calls : List OrchToolCall),
        ∀ c ∈ (executeToolsLoop cfg beh (initState cfg, []) calls).2,
          0 < c ∧ c % CHECKPOINT_INTERVAL = 0 ∧ c ≤ cfg.tool_budget_hard)
    ∧ (∀ (cfg : HarnessConfig) (beh : ExecBeh) (st : HarnessState × List Nat)
          (call : OrchToolCall),
        (processToolCall cfg beh st call).2
          = st.2 ++
            (if 0 < (stepCall cfg beh st.1
                  (call.tool_name, call.arguments)).tool_calls_executed
                ∧ (stepCall cfg beh st.1
                  (call.tool_name, call.arguments)).tool_calls_executed
                    % CHECKPOINT_INTERVAL = 0
              then [(stepCall cfg beh st.1
                  (call.tool_name, call.arguments)).tool_calls_executed]
              else []))
    ∧ (executeToolsLoop tierScenario200 (realBeh pilTrivial 16 16)
        (initState tierScenario200, []) scenarioCalls).2 = [50, 100] := by
  refine ⟨?_, ?_, ?_⟩
  · intro cfg beh calls
    exact executeToolsLoop_cp_inv cfg beh calls (initState cfg, [])
      (Nat.zero_le _) (by intro c hmem; cases hmem)
  · intro cfg beh st call
    simp only [processToolCall]
    split_ifs with hc
    · rfl
    · simp
  · decide

/-- Witness for C7: the checkpoint at count 50 of the budget-200 run is
a positive multiple of the interval within budget. -/
theorem orchestrator_checkpoint_interval_witness :
    0 < 50 ∧ 50 % CHECKPOINT_INTERVAL = 0 ∧ 50 ≤ tierScenario200.tool_budget_hard := by
  refine orchestrator_checkpoint_interval.1 tierScenario200
    (realBeh pilTrivial 16 16) scenarioCalls 50 ?_
  rw [orchestrator_checkpoint_interval.2.2]
  decide


/-- Claim C3 counterexample: a run whose job lookup finds nothing (a
`JobError` raised inside `_initialise`, before a `JobContext` exists)
marks the job failed but issues no refund at all — not the claimed
exactly-one refund. -/
theorem orchestrator_refund_cex :
    (orchestratorRun envJobNotFound).markedFailed = true
    ∧ (orchestratorRun envJobNotFound).refunds.length = 0 := by
  exact ⟨rfl, rfl⟩

/-- Claim C3 (amended): a run that fails after `_initialise` has
succeeded (LLM transport, checkpointing, persistence, ...) marks the job
failed and issues exactly one refund of the tier's full credit cost to
the job's user; a run that fails during initialisation (job not found,
wrong status, tier not found) marks the job failed but issues no refund,
because the `ctx is not None` guard in `_handle_failure` is false; a run
with no failure completes with no refund. -/
theorem orchestrator_refund_on_failure :
    ∀ (env : OrchEnv) (user : Nat) (tier : TierConfig),
      (initialiseJob env = .ok (user, tier) →
        (∀ e, env.failAfterInit = some e →
          (orchestratorRun env).markedFailed = true
          ∧ (orchestratorRun env).refunds = [(user, tier.credit_cost)])
        ∧ (env.failAfterInit = none →
            (orchestratorRun env).completed = true
            ∧ (orchestratorRun env).refunds = []))
      ∧ (∀ e, initialiseJob env = .error e →
          (orchestratorRun env).markedFailed = true
          ∧ (orchestratorRun env).refunds = []) := by
  intro env user tier
  constructor
  · intro hinit
    constructor
    · intro e hfail
      simp [orchestratorRun, hinit, hfail]
    · intro hnone
      simp [orchestratorRun, hinit, hnone]
  · intro e herr
    simp [orchestratorRun, herr]

/-- Witness for C3: in the concrete environment where the `basic` tier
(credit cost 10) is loaded for pending job of user 7 and the LLM then
raises, exactly one refund `(7, 10)` is issued. -/
theorem orchestrator_refund_on_failure_witness :
    (orchestratorRun envLlmFail).markedFailed = true
    ∧ (orchestratorRun envLlmFail).refunds = [(7, tierBasic.credit_cost)] := by
  exact ((orchestrator_refund_on_failure envLlmFail 7 tierBasic).1 rfl).1
    "LLM connection failed" rfl

/-- Claim C4 counterexample: two seal metadata records that differ only
in `key_version` are MACed with the same key — `create_seal` always
hands `settings.HMAC_KEY` to `hmac.new` — whereas under the
version-indexed keyring the spec describes they would use different
keys. -/
theorem seal_key_version_cex :
    macKeyUsed "configured-hmac-key" metaV1 = macKeyUsed "configured-hmac-key" metaV2
    ∧ macKeyUsedSpec demoKeyring metaV1 ≠ macKeyUsedSpec demoKeyring metaV2 := by
  exact ⟨rfl, by decide⟩

/-- Claim C4 (amended): `create_seal` MACs every seal with the single
configured `HMAC_KEY`, whatever `metadata.key_version` is — there is no
version-indexed keyring; the key version enters only the MACed message —
and `verify_seal` recomputes with that same single key (no per-version
lookup), so verification of a freshly created seal succeeds. -/
theorem seal_single_mac_key :
    ∀ (P : CryptoPrims) (key : String) (image_bytes : List Nat)
      (m : SealMetadata) (v : Nat),
      macKeyUsed key m = key
      ∧ macKeyUsed key { m with key_version := v } = macKeyUsed key m
      ∧ (create_seal P key image_bytes m).1
          = P.hmacSha256hex key (sealMessage (P.sha256hex image_bytes) m)
      ∧ (create_seal P key image_bytes m).2 = P.sha256hex image_bytes
      ∧ verify_seal P key image_bytes m ((create_seal P key image_bytes m).1) = true := by
  intro P key image_bytes m v
  refine ⟨rfl, rfl, rfl, rfl, ?_⟩
  unfold verify_seal
  simp


/-- Claim C6: for any two 16-byte (128-bit) identifiers and any RGB
image with at least 256 pixels (8-bit channels, raster-order pixel
list), decoding the encoded image recovers both identifiers; the encoder
leaves the dimensions, the pixel count, every green and blue channel,
every red bit above the LSB, and every pixel from index 256 on
bit-for-bit unchanged. -/
theorem watermark_roundtrip :
    ∀ (image : Img) (a b : List Nat),
      a.length = 16 → b.length = 16 →
      (∀ v ∈ a, v < 256) → (∀ v ∈ b, v < 256) →
      image.pix.length = image.width * image.height →
      256 ≤ image.width * image.height →
      (∀ p ∈ image.pix, p.r < 256) →
      wmDecode (wmEncode image a b) = (a, b)
      ∧ (wmEncode image a b).width = image.width
      ∧ (wmEncode image a b).height = image.height
      ∧ (wmEncode image a b).pix.length = image.pix.length
      ∧ (∀ i : Nat,
          ((wmEncode image a b).pix.getD i default).g
              = (image.pix.getD i default).g
          ∧ ((wmEncode image a b).pix.getD i default).b
              = (image.pix.getD i default).b
          ∧ ((wmEncode image a b).pix.getD i default).r >>> 1
              = (image.pix.getD i default).r >>> 1
          ∧ (256 ≤ i →
              (wmEncode image a b).pix.getD i default
                = image.pix.getD i default)) := by
  intro image a b ha hb hav hbv hlen hsize hr
  have hdlen : (a ++ b).length = 32 := by
    rw [List.length_append, ha, hb]
  have hdlt : ∀ k, k < 32 → (a ++ b).getD k 0 < 256 := by
    intro k hk
    have hk2 : k < (a ++ b).length := by omega
    rw [List.getD_eq_getElem _ _ hk2]
    rcases List.mem_append.mp (List.getElem_mem hk2) with hma | hmb
    · exact hav _ hma
    · exact hbv _ hmb
  have hpixlen : 256 ≤ image.pix.length := by
    rw [hlen]
    exact hsize
  have hlenpix : (wmEncode image a b).pix.length = image.pix.length :=
    encodePix_length (a ++ b) 0 image.pix
  have henc : ∀ i, i < 256 →
      (wmEncode image a b).pix.getD i default
        = { image.pix.getD i default with
            r := ((image.pix.getD i default).r &&& 254) ||| msbBit (a ++ b) i } := by
    intro i hi
    show (encodePix (a ++ b) 0 image.pix).getD i default = _
    rw [encodePix_getD, if_pos ⟨by omega, by rw [hdlen]; omega⟩, Nat.zero_add]
  have hencr : ∀ i, 256 ≤ i →
      (wmEncode image a b).pix.getD i default = image.pix.getD i default := by
    intro i hi
    show (encodePix (a ++ b) 0 image.pix).getD i default = _
    rw [encodePix_getD, if_neg (by rw [hdlen]; omega)]
  have hrlt : ∀ i, i < 256 → (image.pix.getD i default).r < 256 := by
    intro i hi
    have hi2 : i < image.pix.length := by omega
    rw [List.getD_eq_getElem _ _ hi2]
    exact hr _ (List.getElem_mem hi2)
  have hbtlt : ∀ i, msbBit (a ++ b) i < 2 := by
    intro i
    have hle : ((a ++ b).getD (i / 8) 0 >>> (7 - i % 8)) &&& 1 ≤ 1 := Nat.and_le_right
    unfold msbBit
    omega
  have hbit : ∀ i, i < 256 →
      (((wmEncode image a b).pix.take 256).map (fun p => p.r &&& 1)).getD i 0
        = msbBit (a ++ b) i := by
    intro i hi
    have hl : i < (wmEncode image a b).pix.length := by omega
    rw [getD_take_map_bit _ _ _ hi hl, henc i hi]
    exact (enc_bit_facts _ (hrlt i hi) _ (hbtlt i)).1
  have hdec : ∀ k, k < 32 →
      decodeByte (((wmEncode image a b).pix.take 256).map (fun p => p.r &&& 1)) k
        = (a ++ b).getD k 0 := by
    intro k hk
    unfold decodeByte
    rw [List.foldl_ext _
      (fun acc j => acc ||| ((((a ++ b).getD k 0 >>> (7 - j)) &&& 1) <<< (7 - j))) 0 ?_]
    · exact byte_roundtrip _ (hdlt k hk)
    · intro acc j hj
      have hj8 : j < 8 := List.mem_range.mp hj
      have hidx : 8 * k + j < 256 := by omega
      have hdiv : (8 * k + j) / 8 = k := by
        rw [Nat.mul_add_div (by omega)]
        simp [Nat.div_eq_of_lt hj8]
      have hmod : (8 * k + j) % 8 = j := by
        rw [Nat.mul_add_mod]
        exact Nat.mod_eq_of_lt hj8
      rw [hbit _ hidx]
      unfold msbBit
      rw [hdiv, hmod]
  have hdata : (List.range 32).map
      (decodeByte (((wmEncode image a b).pix.take 256).map (fun p => p.r &&& 1)))
        = a ++ b := by
    apply List.ext_getElem
    · simp [hdlen]
    · intro k h1 h2
      simp only [List.getElem_map, List.getElem_range]
      rw [hdec k (by simpa using h1)]
      exact List.getD_eq_getElem _ _ h2
  have hsplit : wmDecode (wmEncode image a b)
      = (((List.range 32).map
            (decodeByte (((wmEncode image a b).pix.take 256).map
              (fun p => p.r &&& 1)))).take 16,
         ((List.range 32).map
            (decodeByte (((wmEncode image a b).pix.take 256).map
              (fun p => p.r &&& 1)))).drop 16) := rfl
  refine ⟨?_, rfl, rfl, hlenpix, ?_⟩
  · rw [hsplit, hdata, ← ha, List.take_left, List.drop_left]
  · intro i
    by_cases hi : i < 256
    · rw [henc i hi]
      refine ⟨rfl, rfl, ?_, ?_⟩
      · exact (enc_bit_facts _ (hrlt i hi) _ (hbtlt i)).2
      · intro h256
        omega
    · rw [hencr i (by omega)]
      exact ⟨rfl, rfl, rfl, fun _ => rfl⟩

set_option maxRecDepth 100000 in
/-- Witness for C6: round trip on a concrete 16x16 black image and two
concrete 16-byte identifiers. -/
theorem watermark_roundtrip_witness :
    wmDecode (wmEncode imgW idBytesA idBytesB) = (idBytesA, idBytesB) := by
  exact (watermark_roundtrip imgW idBytesA idBytesB rfl rfl (by decide) (by decide)
    (by decide) (by decide) (by decide)).1

end PixelArt
